import Mathlib

/-!
# A shallow embedding of the `smartshare` relay server (src/server.js)

This file models, in Lean, the data model and the message handlers of the
WebSocket file-relay server in `src/server.js`, and proves properties of the
model corresponding to the specification's claims.

Modelling conventions:
* JavaScript `Map`s become insertion-ordered association lists
  (`mapLookup`/`mapInsert`/`mapErase` mirror `get`/`set`/`delete`);
  JS `Set`s of strings become duplicate-free insertion-ordered lists.
* A WebSocket channel is a numeric identifier; `ServerState.channels` records
  which channels are open (`readyState === OPEN`), and every frame delivered
  on a channel is appended to the `emitted` log.  `ws.send` on a non-open
  socket delivers nothing.  A `.ws.send` on a `null` socket raises a
  `TypeError` which aborts the handler: handlers model this by stopping,
  keeping all mutations made up to that point (JS exceptions do not roll
  back state; `handleMessage` catches them at the frame boundary).
* Timestamps (`Date.now()`, `new Date()`) are `Nat` milliseconds supplied by
  the caller; randomly minted identifiers (`generateTransferId`,
  `generateRoomId`) are supplied by the caller as `fresh` arguments.
* Strings are treated as sequences of Unicode scalars; the clients involved
  use ASCII identification material, for which JS `toLowerCase`/`trim` and
  UTF-16 `charCodeAt` agree with the Lean counterparts used here.
* `updateMemoryUsage` (src/server.js lines 117-123) reads the bare
  identifier `MAX_MEMORY_USAGE` in its guard.  No binding of that name
  exists anywhere in the program (the limit only exists as the property
  `MEMORY_LIMITS.MAX_MEMORY_USAGE`), so evaluating the guard raises a
  `ReferenceError` on every call, after the `+=` has executed.  The model
  returns the mutated state together with `true` ("an exception escaped").
-/

set_option linter.unusedVariables false
set_option maxRecDepth 10000

/-! ## Insertion-ordered maps and sets (JS `Map` / `Set`) -/

/-- Lookup in an insertion-ordered association list (JS `Map.prototype.get`). -/
def mapLookup {κ α : Type} [DecidableEq κ] (m : List (κ × α)) (k : κ) : Option α :=
  match m with
  | [] => none
  | (k', v) :: rest => if k' = k then some v else mapLookup rest k

/-- `Map.prototype.set`: replace in place if the key exists, else append
(JS `Map` keeps the original insertion position on overwrite). -/
def mapInsert {κ α : Type} [DecidableEq κ] (m : List (κ × α)) (k : κ) (v : α) :
    List (κ × α) :=
  match m with
  | [] => [(k, v)]
  | (k', v') :: rest =>
    if k' = k then (k, v) :: rest else (k', v') :: mapInsert rest k v

/-- `Map.prototype.delete`. -/
def mapErase {κ α : Type} [DecidableEq κ] (m : List (κ × α)) (k : κ) : List (κ × α) :=
  match m with
  | [] => []
  | (k', v') :: rest => if k' = k then rest else (k', v') :: mapErase rest k

/-- `Set.prototype.add` on a duplicate-free insertion-ordered list. -/
def setAdd (l : List String) (x : String) : List String :=
  if x ∈ l then l else l ++ [x]

/-- `Set.prototype.delete`. -/
def setDel (l : List String) (x : String) : List String :=
  l.filter (fun y => y ≠ x)

/-! ## String helpers mirroring the JavaScript primitives -/

/-- Boolean list-prefix test (used to model `String.prototype.startsWith`
and substring search). -/
def listIsPre : List Char → List Char → Bool
  | [], _ => true
  | _ :: _, [] => false
  | a :: as, b :: bs => a = b && listIsPre as bs

/-- Substring occurrence over character lists. -/
def listHasSub (pat : List Char) : List Char → Bool
  | [] => listIsPre pat []
  | c :: rest => listIsPre pat (c :: rest) || listHasSub pat rest

/-- `String.prototype.includes` (for a fixed search string). -/
def jsIncludes (s pat : String) : Bool := listHasSub pat.data s.data

/-- `String.prototype.startsWith`. -/
def jsStartsWith (s pat : String) : Bool := listIsPre pat.data s.data

/-- ASCII lower-casing of one character (JS `toLowerCase` on the ASCII
range used by the protocol). -/
def charLower (c : Char) : Char :=
  if 'A' ≤ c && c ≤ 'Z' then Char.ofNat (c.toNat + 32) else c

/-- `String.prototype.toLowerCase` (ASCII). -/
def strLower (s : String) : String := ⟨s.data.map charLower⟩

/-- An ASCII whitespace character (the ones `trim` strips in the inputs
considered). -/
def isWsChar (c : Char) : Bool := c = ' ' || c = '\t' || c = '\n' || c = '\r'

/-- `String.prototype.trim` (ASCII whitespace). -/
def strTrim (s : String) : String :=
  ⟨((s.data.dropWhile isWsChar).reverse.dropWhile isWsChar).reverse⟩

/-- JS `a || b` on two optional strings (empty string is falsy). -/
def jsOr (a : Option String) (b : String) : String :=
  match a with
  | some x => if x = "" then b else x
  | none => b

/-- Truncation to a signed 32-bit integer (JS `ToInt32`, as performed by the
bitwise operators `<<` and `&`). -/
def toInt32 (n : Int) : Int := (n + 2 ^ 31) % 2 ^ 32 - 2 ^ 31

/-- One step of the rolling hash `hash = ((hash << 5) - hash) + char; hash &= hash`
(src/server.js lines 374-377 / 389-392). `hash << 5` truncates to int32, the
subtraction and addition are exact, `hash & hash` truncates again. -/
def hashStep (h : Int) (c : Nat) : Int := toInt32 (toInt32 (h * 32) - h + c)

/-- The 32-bit rolling hash of a string, starting from 0; `charCodeAt` is the
character's code (inputs are BMP/ASCII). -/
def hashString (s : String) : Int :=
  s.data.foldl (fun h c => hashStep h c.toNat) 0

/-- Digit characters for `Number.prototype.toString(36)` (0-9 then a-z). -/
def base36digit (n : Nat) : Char :=
  if n < 10 then Char.ofNat (48 + n) else Char.ofNat (87 + n)

/-- Most-significant-first base-36 digits, with an explicit recursion bound
(the bound 64 covers every number below `36 ^ 64`, far beyond the 32-bit
values produced by the hash). -/
def toBase36Go : Nat → Nat → List Char
  | 0, _ => []
  | fuel + 1, n => if n = 0 then [] else toBase36Go fuel (n / 36) ++ [base36digit (n % 36)]

/-- `Math.abs(hash).toString(36)` for naturals. -/
def toBase36 (n : Nat) : String :=
  if n = 0 then "0" else ⟨toBase36Go 64 n⟩

/-! ## Chunk payload sanitation (src/server.js lines 1061-1073) -/

/-- The base-64 alphabet kept by `replace(/[^A-Za-z0-9+\/=]/g, '')`. -/
def isBase64Char (c : Char) : Bool :=
  ('A' ≤ c && c ≤ 'Z') || ('a' ≤ c && c ≤ 'z') || ('0' ≤ c && c ≤ '9') ||
    c = '+' || c = '/' || c = '='

/-- Drop everything up to and including the first comma (`indexOf(',')` +
`substring(commaIndex + 1)`); `none` when there is no comma. -/
def dropThroughComma : List Char → Option (List Char)
  | [] => none
  | c :: rest => if c = ',' then some rest else dropThroughComma rest

/-- Strip a data-URL header: only applies when the string starts with
`data:`, and only when a comma is present. -/
def stripDataUrl (s : String) : String :=
  if jsStartsWith s "data:" then
    match dropThroughComma s.data with
    | some rest => ⟨rest⟩
    | none => s
  else s

/-- The server-side sanitation applied to every received chunk payload:
data-URL header strip, then removal of non-base64 characters. -/
def cleanChunk (s : String) : String :=
  ⟨(stripDataUrl s).data.filter isBase64Char⟩

/-! ## Sparse JS arrays of chunk payloads

`transfer.chunks` is a JS array written at arbitrary indices
(`chunks[chunkIndex] = data`); holes read as `undefined` and `join('')`
treats them as empty strings. -/

/-- `chunks[i]` (out of range and holes both give `undefined`/`none`). -/
def arrayGet (arr : List (Option String)) (i : Nat) : Option String :=
  (arr.getD i none)

/-- `chunks[i] = v`: pads with holes when writing past the end. -/
def arraySet (arr : List (Option String)) (i : Nat) (v : String) : List (Option String) :=
  match arr, i with
  | [], 0 => [some v]
  | [], n + 1 => none :: arraySet [] n v
  | _ :: rest, 0 => some v :: rest
  | a :: rest, n + 1 => a :: arraySet rest n v

/-- `chunks.join('')`. -/
def arrayJoin (arr : List (Option String)) : String :=
  String.join (arr.map (fun o => o.getD ""))

/-- JS truthiness of `chunks[i]`: an absent entry and an empty string are
both falsy. -/
def arrayGetTruthy (arr : List (Option String)) (i : Nat) : Option String :=
  match arrayGet arr i with
  | some v => if v = "" then none else some v
  | none => none

/-- `Math.round(received / total * 100)` for naturals (total = 0 never occurs
in the runs considered; the JS value would be `Infinity`). -/
def jsRoundPct (received total : Nat) : Nat := (200 * received + total) / (2 * total)

/-! ## Data model (src/server.js lines 105-190, 440-482, 1201-1211, 1371-1377) -/

/-- One entry of a transfer offer's `files` array (name, size, type). -/
structure FileMeta where
  name : String
  size : Nat
  type : String
  deriving DecidableEq, Repr

/-- A record of the `fileTransfers` map (created at lines 1201-1211; the
fields `startTime`/`endTime`/`status` are updated while streaming). -/
structure Transfer where
  files : List FileMeta
  fromDevice : String
  fromDeviceId : String
  targetDeviceId : String
  timestamp : Nat
  totalSize : Nat
  status : String
  chunks : Option (List (Option String))
  receivedChunks : Nat
  startTime : Option Nat := none
  endTime : Option Nat := none
  deriving DecidableEq, Repr

/-- A record of the `devices` map.  `ws` is the bound channel (`null` when
offline); channels themselves live in `ServerState.channels`. -/
structure Device where
  id : String
  ws : Option Nat
  name : String
  customName : Option String
  type : String
  platform : String
  browser : String
  userAgent : String
  pinned : Bool
  online : Bool
  lastSeen : Nat
  roomId : Option String
  connectionStrength : String
  ip : String
  deriving DecidableEq, Repr

/-- A record of the `rooms` map; `devices` is the member set (insertion
ordered, duplicate free). -/
structure Room where
  id : String
  name : String
  created : Nat
  createdBy : String
  devices : List String
  deriving DecidableEq, Repr

/-- One entry of a `deviceList` broadcast (projection at lines 1456-1471). -/
structure DeviceEntry where
  id : String
  name : String
  originalName : String
  type : String
  platform : String
  browser : String
  pinned : Bool
  online : Bool
  lastSeen : Nat
  connectionStrength : String
  hasCustomName : Bool
  deriving DecidableEq, Repr

/-- Outbound frames, with the payload fields the handlers fill in. -/
inductive Frame where
  | welcome (deviceId chunkSize : String)
  | duplicateConnection (message : String) (keepThisConnection : Bool)
  | roomJoined (roomId roomName : String) (deviceCount : Nat)
  | roomCreated (roomId roomName : String)
  | roomLeft
  | roomError (message : String)
  | deviceJoined (deviceId deviceName : String) (deviceCount : Nat)
  | deviceLeftF (deviceId deviceName : String) (deviceCount : Int) (reason : Option String)
  | deviceListF (devices : List DeviceEntry) (roomId roomName : String) (deviceCount : Nat)
  | incomingFile (files : List FileMeta) (fromDevice fromDeviceId transferId : String)
      (totalSize : Nat)
  | transferStarted (targetDevice transferId : String)
  | transferErrorF (message : String)
  | uploadProgress (transferId : String) (progress receivedChunks totalChunks : Nat)
  | fileCompleteF (transferId fileName fileType : String) (fileSize : Nat)
      (fileData fromDevice : String)
  | transferCompleteF (transferId fileName targetDevice : String)
  | transferErrorT (transferId message : String)
  | fileChunkF (targetDeviceId transferId : String) (fileIndex chunkIndex totalChunks : Nat)
      (data : String) (fileSize : Nat)
  | deviceNameUpdated (name : String)
  deriving DecidableEq, Repr

/-- The process-wide mutable state of the worker.  `emitted` is the log of
frames delivered on open channels, in delivery order. -/
structure ServerState where
  rooms : List (String × Room)
  devices : List (String × Device)
  connections : List (Nat × String)
  fileTransfers : List (String × Transfer)
  channels : List (Nat × Bool)
  currentMemoryUsage : Int
  emitted : List (Nat × Frame)
  deriving DecidableEq, Repr

/-- The state at worker start, before any connection (persisted catalogs
empty). -/
def initState : ServerState :=
  { rooms := [], devices := [], connections := [], fileTransfers := [],
    channels := [], currentMemoryUsage := 0, emitted := [] }

/-! ## Identity hasher and platform detection (src/server.js lines 314-396) -/

/-- `detectPlatform` (lines 314-351): platform and browser from the
lower-cased user agent. -/
def detectPlatform (userAgent : String) : String × String :=
  let ua := strLower userAgent
  let platform :=
    if jsIncludes ua "iphone" || jsIncludes ua "ipod" then "iOS"
    else if jsIncludes ua "ipad" then "iPadOS"
    else if jsIncludes ua "android" then "Android"
    else if jsIncludes ua "windows" then "Windows"
    else if jsIncludes ua "mac os" || jsIncludes ua "macos" then "macOS"
    else if jsIncludes ua "linux" then "Linux"
    else "Unknown"
  let browser :=
    if jsIncludes ua "safari" && !jsIncludes ua "chrome" && !jsIncludes ua "crios" then
      "Safari"
    else if jsIncludes ua "chrome" && !jsIncludes ua "edg" then "Chrome"
    else if jsIncludes ua "firefox" then "Firefox"
    else if jsIncludes ua "edge" then "Edge"
    else if jsIncludes ua "opera" then "Opera"
    else if jsIncludes ua "samsung" then "Samsung Internet"
    else "Unknown"
  (platform, browser)

/-- `generateDeviceName` (lines 741-754); the lookup table's last key is
`'Unbekannt'` while `detectPlatform` yields `'Unknown'`, so unknown
platforms fall through to the raw platform string, as in the source. -/
def generateDeviceName (platform browser : String) : String :=
  let baseName :=
    if platform = "Windows" then "Windows PC"
    else if platform = "macOS" then "Mac"
    else if platform = "Linux" then "Linux PC"
    else if platform = "Android" then "Android Gerät"
    else if platform = "iOS" then "iPhone"
    else if platform = "iPadOS" then "iPad"
    else if platform = "Unbekannt" then "Unbekanntes Gerät"
    else platform
  baseName ++ " (" ++ browser ++ ")"

/-- `getDeviceType` (lines 756-765). -/
def getDeviceType (platform : String) : String :=
  if platform = "Android" || platform = "iOS" then "mobile"
  else if platform = "iPadOS" then "tablet"
  else if platform = "Windows" || platform = "macOS" || platform = "Linux" then "desktop"
  else "unknown"

/-- The case-sensitive regular-expression test `/iPhone|iPad|iPod/.test(ua)`
used by the connection handler (line 404) and by the specification's
wording for the iOS class of user agents. -/
def iosRegexTest (ua : String) : Bool :=
  jsIncludes ua "iPhone" || jsIncludes ua "iPad" || jsIncludes ua "iPod"

/-- The hasher's own iOS test (lines 367-368): case-insensitive containment
on the lower-cased user agent. -/
def isIOSUserAgent (ua : String) : Bool :=
  let l := strLower ua
  jsIncludes l "iphone" || jsIncludes l "ipad" || jsIncludes l "ipod"

/-- `generateStableDeviceId` (lines 365-396).  `ip` is the already-resolved
client address (`x-forwarded-for` falling back to the socket address, empty
when absent) and `lang` the `accept-language` header (empty when absent). -/
def generateStableDeviceId (userAgent ip lang : String) : String :=
  if isIOSUserAgent userAgent then
    "ios-" ++ toBase36 (hashString (userAgent ++ lang)).natAbs
  else
    "device-" ++ toBase36 (hashString (userAgent ++ ip ++ lang)).natAbs

/-! ## Channel sends and the memory governor -/

/-- `ws.readyState === WebSocket.OPEN` for a channel identifier. -/
def channelOpen (s : ServerState) (c : Nat) : Bool := (mapLookup s.channels c).getD false

/-- `ws.send(JSON.stringify(frame))`: delivered (logged) only when the
channel is open; a send on a closing/closed socket delivers nothing. -/
def emitTo (s : ServerState) (c : Nat) (f : Frame) : ServerState :=
  if channelOpen s c then { s with emitted := s.emitted ++ [(c, f)] } else s

/-- The guarded pattern `if (d && d.ws) d.ws.send(frame)`: nothing happens
when no socket is bound. -/
def devEmit (s : ServerState) (d : Device) (f : Frame) : ServerState :=
  match d.ws with
  | some c => emitTo s c f
  | none => s

/-- `d.ws && d.ws.readyState === WebSocket.OPEN`. -/
def devChannelOpen (s : ServerState) (d : Device) : Bool :=
  match d.ws with
  | some c => channelOpen s c
  | none => false

/-- `updateMemoryUsage` (lines 117-123): adds the delta to
`currentMemoryUsage` and then raises a `ReferenceError`, because its guard
reads the undeclared bare identifier `MAX_MEMORY_USAGE` (the limit exists
only as `MEMORY_LIMITS.MAX_MEMORY_USAGE`; contrast `checkMemoryUsage` at
line 148, which spells it correctly).  The `Bool` is `true` when an
exception escaped the call — which is always. -/
def updateMemoryUsage (delta : Int) (s : ServerState) : ServerState × Bool :=
  ({ s with currentMemoryUsage := s.currentMemoryUsage + delta }, true)

/-! ## Presence broadcast (lines 1429-1482) -/

/-- `broadcastToRoom`: deliver a frame to every member whose device is
online with an open socket, skipping `excludeDeviceId`. -/
def broadcastToRoom (roomId : String) (f : Frame) (exclude : Option String)
    (s : ServerState) : ServerState :=
  match mapLookup s.rooms roomId with
  | none => s
  | some room =>
    room.devices.foldl (fun acc did =>
      if some did = exclude then acc
      else
        match mapLookup acc.devices did with
        | some d => if d.online then devEmit acc d f else acc
        | none => acc) s

/-- The projection of one member for a `deviceList` frame (lines 1459-1471). -/
def deviceEntryOf (d : Device) : DeviceEntry :=
  { id := d.id, name := jsOr d.customName d.name, originalName := d.name,
    type := d.type, platform := d.platform, browser := d.browser,
    pinned := d.pinned, online := d.online, lastSeen := d.lastSeen,
    connectionStrength := if d.connectionStrength = "" then "good" else d.connectionStrength,
    hasCustomName := match d.customName with | some c => c ≠ "" | none => false }

/-- `broadcastDeviceList` (lines 1452-1482). -/
def broadcastDeviceList (roomId : String) (s : ServerState) : ServerState :=
  match mapLookup s.rooms roomId with
  | none => s
  | some room =>
    let entries := (room.devices.filterMap (fun did => mapLookup s.devices did)).map
      deviceEntryOf
    broadcastToRoom roomId (.deviceListF entries roomId room.name entries.length) none s

/-! ## Transfer engine (lines 960-1237 and the `transferComplete` case) -/

/-- The payload of a `fileTransfer` offer.  `transferId` is
caller-proposed; `data.transferId || generateTransferId()` falls back to a
minted one (supplied here as `freshId`). -/
structure FileTransferMsg where
  targetDeviceId : String
  files : List FileMeta
  transferId : Option String
  deriving DecidableEq, Repr

/-- `handleFileTransfer` (lines 1179-1237).  A missing sender or an empty
`files` array raises before any mutation, leaving the state unchanged. -/
def handleFileTransfer (senderId : String) (msg : FileTransferMsg) (freshId : String)
    (now : Nat) (s : ServerState) : ServerState :=
  match mapLookup s.devices senderId with
  | none => s
  | some sender =>
    match mapLookup s.devices msg.targetDeviceId with
    | none => devEmit s sender (.transferErrorF "Zielgerät nicht gefunden")
    | some receiver =>
      if sender.roomId ≠ receiver.roomId then
        devEmit s sender (.transferErrorF "Gerät nicht im selben Raum")
      else
        let transferId := jsOr msg.transferId freshId
        match msg.files with
        | [] => s
        | f0 :: _ =>
          let t : Transfer :=
            { files := msg.files, fromDevice := jsOr sender.customName sender.name,
              fromDeviceId := senderId, targetDeviceId := msg.targetDeviceId,
              timestamp := now, totalSize := f0.size, status := "pending",
              chunks := some [], receivedChunks := 0 }
          let s1 := { s with fileTransfers := mapInsert s.fileTransfers transferId t }
          if receiver.online && devChannelOpen s1 receiver then
            let s2 := devEmit s1 receiver
              (.incomingFile msg.files t.fromDevice senderId transferId f0.size)
            devEmit s2 sender
              (.transferStarted (jsOr receiver.customName receiver.name) transferId)
          else
            devEmit s1 sender (.transferErrorF "Zielgerät ist offline")

/-- One `fileChunk` frame from the sender. -/
structure FileChunkMsg where
  transferId : String
  chunkIndex : Nat
  totalChunks : Nat
  data : String
  fileSize : Nat
  deriving DecidableEq, Repr

/-- `handleFileChunk` (lines 1043-1153).  In the `!transfer.chunks` branch
the initialisation runs and then `updateMemoryUsage` raises, aborting the
handler (this branch is unreachable for transfers minted by
`handleFileTransfer`, which pre-sets `chunks: []` — a truthy value). -/
def handleFileChunk (msg : FileChunkMsg) (now : Nat) (s : ServerState) : ServerState :=
  match mapLookup s.fileTransfers msg.transferId with
  | none => s
  | some t0 =>
    match t0.chunks with
    | none =>
      let t1 := { t0 with
        chunks := some [], receivedChunks := 0,
        startTime := some now, totalSize := msg.fileSize }
      let s1 := { s with fileTransfers := mapInsert s.fileTransfers msg.transferId t1 }
      (updateMemoryUsage (Int.ofNat msg.fileSize) s1).1
    | some arr =>
      let cleanData := cleanChunk msg.data
      let arr1 := arraySet arr msg.chunkIndex cleanData
      let t1 := { t0 with chunks := some arr1, receivedChunks := t0.receivedChunks + 1 }
      let s1 := { s with fileTransfers := mapInsert s.fileTransfers msg.transferId t1 }
      let sender := mapLookup s1.devices t1.fromDeviceId
      let s2 :=
        match sender with
        | some snd => devEmit s1 snd (.uploadProgress msg.transferId
            (jsRoundPct t1.receivedChunks msg.totalChunks) t1.receivedChunks msg.totalChunks)
        | none => s1
      if t1.receivedChunks = msg.totalChunks then
        let completeFileData := arrayJoin arr1
        match t1.files with
        | [] =>
          match sender with
          | some snd =>
            devEmit s2 snd (.transferErrorT msg.transferId "Fehler beim Verarbeiten der Datei")
          | none => s2
        | f0 :: _ =>
          match mapLookup s2.devices t1.targetDeviceId with
          | some receiver =>
            if devChannelOpen s2 receiver then
              let s3 := devEmit s2 receiver (.fileCompleteF msg.transferId f0.name
                (if f0.type = "" then "application/octet-stream" else f0.type)
                f0.size completeFileData t1.fromDevice)
              let s4 :=
                match sender with
                | some snd => devEmit s3 snd (.transferCompleteF msg.transferId f0.name
                    (jsOr receiver.customName receiver.name))
                | none => s3
              let t2 := { t1 with status := "completed", endTime := some now }
              { s4 with fileTransfers := mapInsert s4.fileTransfers msg.transferId t2 }
            else
              match sender with
              | some snd =>
                devEmit s2 snd (.transferErrorT msg.transferId "Empfänger nicht erreichbar")
              | none => s2
          | none =>
            match sender with
            | some snd =>
              devEmit s2 snd (.transferErrorT msg.transferId "Empfänger nicht erreichbar")
            | none => s2
      else s2

/-- `handleFileCancel` (lines 1167-1176).  When buffers exist,
`updateMemoryUsage` raises and the `fileTransfers.delete` below it never
runs. -/
def handleFileCancel (transferId : String) (s : ServerState) : ServerState :=
  match mapLookup s.fileTransfers transferId with
  | none => s
  | some t =>
    match t.chunks with
    | some _ => (updateMemoryUsage (-(t.totalSize : Int)) s).1
    | none => { s with fileTransfers := mapErase s.fileTransfers transferId }

/-- `handleFileComplete` (lines 995-1011): same release-then-delete shape
as `handleFileCancel`. -/
def handleFileComplete (transferId : String) (s : ServerState) : ServerState :=
  match mapLookup s.fileTransfers transferId with
  | none => s
  | some t =>
    match t.chunks with
    | some _ => (updateMemoryUsage (-(t.totalSize : Int)) s).1
    | none => { s with fileTransfers := mapErase s.fileTransfers transferId }

/-- The `case 'transferComplete'` body of `handleMessage` (lines 827-837). -/
def handleTransferCompleteMsg (transferId : String) (s : ServerState) : ServerState :=
  match mapLookup s.fileTransfers transferId with
  | none => s
  | some t =>
    match t.chunks with
    | some _ => (updateMemoryUsage (-(t.totalSize : Int)) s).1
    | none => { s with fileTransfers := mapErase s.fileTransfers transferId }

/-- A `requestMissingChunks` frame from the receiver. -/
structure ReqMissingMsg where
  transferId : String
  missingChunks : List Nat
  totalChunks : Nat
  deriving DecidableEq, Repr

/-- `handleRequestMissingChunks` (lines 960-991).  Note that the re-emitted
`fileChunk` frames are written to `sender.ws` — the socket of the
transfer's sender — while the requesting receiver's id only appears inside
the frame as `targetDeviceId`. -/
def handleRequestMissingChunks (deviceId : String) (msg : ReqMissingMsg)
    (s : ServerState) : ServerState :=
  match mapLookup s.fileTransfers msg.transferId with
  | none => s
  | some t =>
    match mapLookup s.devices t.fromDeviceId with
    | none => s
    | some sender =>
      match sender.ws with
      | none => s
      | some sc =>
        if channelOpen s sc = false then s
        else
          match t.files with
          | [] => s
          | f0 :: _ =>
            msg.missingChunks.foldl (fun acc i =>
              match t.chunks with
              | some arr =>
                match arrayGetTruthy arr i with
                | some chunkData =>
                  emitTo acc sc
                    (.fileChunkF deviceId msg.transferId 0 i msg.totalChunks chunkData f0.size)
                | none => acc
              | none => acc) s

/-- The transfer part of the janitor interval (lines 1754-1762), iterating
the map in insertion order.  The first expired transfer that still holds
buffers makes `updateMemoryUsage` raise, aborting the whole sweep (its
deletion and every later iteration are skipped). -/
def sweepGo (now : Nat) : List (String × Transfer) → ServerState → ServerState
  | [], s => s
  | (tid, _) :: rest, s =>
    match mapLookup s.fileTransfers tid with
    | none => sweepGo now rest s
    | some t =>
      if now - t.timestamp > 60 * 60 * 1000 then
        match t.chunks with
        | some _ => (updateMemoryUsage (-(t.totalSize : Int)) s).1
        | none => sweepGo now rest { s with fileTransfers := mapErase s.fileTransfers tid }
      else sweepGo now rest s

/-- The janitor's expired-transfer sweep. -/
def janitorTransferSweep (now : Nat) (s : ServerState) : ServerState :=
  sweepGo now s.fileTransfers s

/-! ## Room membership (lines 1264-1427) -/

/-- The payload of `createRoom` / `joinRoom`.  `requestedRoom` is the
already-coalesced `data.roomName || data.roomId` (empty when both are
missing or empty, both being falsy). -/
structure RoomMsg where
  requestedRoom : String
  deriving DecidableEq, Repr

/-- The case-insensitive room search of `handleJoinRoom` (lines 1280-1285):
first entry, in insertion order, whose lower-cased name equals the key;
returns the map key together with the room. -/
def findRoomEntry (rs : List (String × Room)) (key : String) : Option (String × Room) :=
  match rs with
  | [] => none
  | (k, r) :: rest => if strLower r.name = key then some (k, r) else findRoomEntry rest key

/-- The duplicate check of `handleCreateRoom` (lines 1344-1353). -/
def roomNameTaken (rs : List (String × Room)) (key : String) : Bool :=
  rs.any (fun p => strLower p.2.name = key)

/-- `handleLeaveRoom` (lines 1394-1427).  The final `device.ws.send` has no
statement after it that mutates state, so a `null` socket (which would
raise) and a closed socket are both modelled as silent non-delivery. -/
def handleLeaveRoom (deviceId : String) (s : ServerState) : ServerState :=
  match mapLookup s.devices deviceId with
  | none => s
  | some dev =>
    match dev.roomId with
    | none => s
    | some roomId =>
      let s1 :=
        match mapLookup s.rooms roomId with
        | none => s
        | some room =>
          let room1 := { room with devices := setDel room.devices deviceId }
          if room1.devices.isEmpty then
            { s with rooms := mapErase s.rooms roomId }
          else
            let sA := { s with rooms := mapInsert s.rooms roomId room1 }
            broadcastToRoom roomId
              (.deviceLeftF deviceId (jsOr dev.customName dev.name)
                (room1.devices.length : Int) none)
              (some deviceId) sA
      let s2 := { s1 with
        devices := mapInsert s1.devices deviceId { dev with roomId := none } }
      devEmit s2 dev .roomLeft

/-- `handleJoinRoom` (lines 1264-1326).  Lookup is by display name only
(case-insensitive, request side trimmed).  When the device is already in a
room, `handleLeaveRoom` runs first; the JS `foundRoom` object reference
survives that call, so if the leave deleted the found room from the map
(rejoining one's own previously-sole-member room) the later mutations hit
a detached object and the map is not re-populated. -/
def handleJoinRoom (deviceId : String) (msg : RoomMsg) (s : ServerState) : ServerState :=
  match mapLookup s.devices deviceId with
  | none => s
  | some dev =>
    if msg.requestedRoom = "" || strTrim msg.requestedRoom = "" then
      devEmit s dev (.roomError "Raumname darf nicht leer sein")
    else
      let key := strTrim (strLower msg.requestedRoom)
      match findRoomEntry s.rooms key with
      | none => devEmit s dev (.roomError "Raum nicht gefunden")
      | some (k, fr) =>
        let s1 :=
          match dev.roomId with
          | some _ => handleLeaveRoom deviceId s
          | none => s
        let frCur :=
          match mapLookup s1.rooms k with
          | some r => r
          | none => { fr with devices := setDel fr.devices deviceId }
        let frNew := { frCur with devices := setAdd frCur.devices deviceId }
        let s2 :=
          match mapLookup s1.rooms k with
          | some _ => { s1 with rooms := mapInsert s1.rooms k frNew }
          | none => s1
        let dev1 := (mapLookup s2.devices deviceId).getD dev
        let s3 := { s2 with
          devices := mapInsert s2.devices deviceId { dev1 with roomId := some fr.id } }
        match dev1.ws with
        | none => s3
        | some c =>
          let s4 := emitTo s3 c (.roomJoined fr.id fr.name frNew.devices.length)
          let s5 := broadcastDeviceList fr.id s4
          broadcastToRoom fr.id
            (.deviceJoined deviceId (jsOr dev1.customName dev1.name) frNew.devices.length)
            (some deviceId) s5

/-- `handleCreateRoom` (lines 1332-1392).  `freshRoomId` stands for
`generateRoomId()`. -/
def handleCreateRoom (deviceId : String) (msg : RoomMsg) (freshRoomId : String)
    (now : Nat) (s : ServerState) : ServerState :=
  match mapLookup s.devices deviceId with
  | none => s
  | some dev =>
    if msg.requestedRoom = "" || strTrim msg.requestedRoom = "" then
      devEmit s dev (.roomError "Raumname darf nicht leer sein")
    else
      let key := strTrim (strLower msg.requestedRoom)
      if roomNameTaken s.rooms key then
        devEmit s dev (.roomError "Raum existiert bereits")
      else
        let s1 :=
          match dev.roomId with
          | some _ => handleLeaveRoom deviceId s
          | none => s
        let newRoom : Room :=
          { id := freshRoomId, name := strTrim msg.requestedRoom, created := now,
            createdBy := deviceId, devices := [deviceId] }
        let s2 := { s1 with rooms := mapInsert s1.rooms freshRoomId newRoom }
        let dev1 := (mapLookup s2.devices deviceId).getD dev
        let s3 := { s2 with
          devices := mapInsert s2.devices deviceId { dev1 with roomId := some freshRoomId } }
        match dev1.ws with
        | none => s3
        | some c =>
          let s4 := emitTo s3 c (.roomCreated freshRoomId (strTrim msg.requestedRoom))
          broadcastDeviceList freshRoomId s4

/-! ## Device-mutating frames (lines 1017-1039, 1240-1261, 1540-1550) -/

/-- The payload of a `deviceInfo` frame. -/
structure DeviceInfoMsg where
  name : Option String
  customName : Option String
  type : Option String
  deriving DecidableEq, Repr

/-- `handleDeviceInfo` (lines 1017-1039): `x || existing` update of name,
custom name and type. -/
def handleDeviceInfo (deviceId : String) (msg : DeviceInfoMsg) (now : Nat)
    (s : ServerState) : ServerState :=
  match mapLookup s.devices deviceId with
  | none => s
  | some dev =>
    let dev1 := { dev with
      name := jsOr msg.name dev.name,
      customName :=
        (match msg.customName with
         | some c => if c = "" then dev.customName else some c
         | none => dev.customName),
      type := jsOr msg.type dev.type,
      lastSeen := now }
    let s1 := { s with devices := mapInsert s.devices deviceId dev1 }
    match dev1.roomId with
    | some rid => broadcastDeviceList rid s1
    | none => s1

/-- `handleUpdateDeviceName` (lines 1240-1261): sets both `name` and
`customName` to the supplied name, broadcasts, then acknowledges on an open
socket. -/
def handleUpdateDeviceName (deviceId : String) (newName : String) (now : Nat)
    (s : ServerState) : ServerState :=
  match mapLookup s.devices deviceId with
  | none => s
  | some dev =>
    let dev1 := { dev with name := newName, customName := some newName, lastSeen := now }
    let s1 := { s with devices := mapInsert s.devices deviceId dev1 }
    let s2 :=
      match dev1.roomId with
      | some rid => broadcastDeviceList rid s1
      | none => s1
    if devChannelOpen s2 dev1 then devEmit s2 dev1 (.deviceNameUpdated newName) else s2

/-- `handleTogglePinDevice` (lines 1540-1550): flips the target's pin when
both devices share a room (including both being in no room, where the
following `broadcastDeviceList(null)` finds no room and does nothing). -/
def handleTogglePinDevice (deviceId targetDeviceId : String) (s : ServerState) :
    ServerState :=
  match mapLookup s.devices deviceId with
  | none => s
  | some dev =>
    match mapLookup s.devices targetDeviceId with
    | none => s
    | some target =>
      if dev.roomId = target.roomId then
        let target1 := { target with pinned := !target.pinned }
        let s1 := { s with devices := mapInsert s.devices targetDeviceId target1 }
        match dev.roomId with
        | some rid => broadcastDeviceList rid s1
        | none => s1
      else s

/-! ## Connection lifecycle (lines 398-685, 1716-1751) -/

/-- The `wss.on('connection')` handler (lines 398-584): open the channel,
send the instant welcome for iOS Safari, upsert the device (rebinding keeps
`customName`, `pinned` and `roomId`), register the connection, and send the
debounced default welcome for everyone else (delivered here provided the
channel is still open, abstracting the 100 ms debounce).  No duplicate-
connection handling happens: `checkForDuplicateConnections` is never
invoked from this handler or anywhere else. -/
def handleConnection (ws : Nat) (userAgent ip lang : String) (now : Nat)
    (s : ServerState) : ServerState :=
  let pb := detectPlatform userAgent
  let deviceId := generateStableDeviceId userAgent ip lang
  let isIOS := iosRegexTest userAgent
  let isSafari := pb.2 = "Safari"
  let s0 := { s with channels := mapInsert s.channels ws true }
  let s1 := if isIOS && isSafari then emitTo s0 ws (.welcome deviceId "1MB") else s0
  let s2 :=
    match mapLookup s1.devices deviceId with
    | some d =>
      { s1 with devices := mapInsert s1.devices deviceId { d with
          ws := some ws, online := true, lastSeen := now,
          userAgent := userAgent, platform := pb.1, browser := pb.2, ip := ip } }
    | none =>
      let fresh : Device :=
        { id := deviceId, ws := some ws, name := generateDeviceName pb.1 pb.2,
          customName := none, type := getDeviceType pb.1, platform := pb.1,
          browser := pb.2, userAgent := userAgent, pinned := false, online := true,
          lastSeen := now, roomId := none, connectionStrength := "good", ip := ip }
      { s1 with devices := mapInsert s1.devices deviceId fresh }
  let s3 := { s2 with connections := mapInsert s2.connections ws deviceId }
  if !(isIOS && isSafari) then emitTo s3 ws (.welcome deviceId "20MB") else s3

/-- `checkForDuplicateConnections` (lines 649-685).  This function is
defined in the source but has no call site; it is embedded here for
reference.  It notifies and (after a one-second grace, abstracted) closes
every other open connection bound to the same device id, then tells the
current connection it is authoritative. -/
def checkForDuplicateConnections (deviceId : String) (currentWs : Nat)
    (s : ServerState) : ServerState :=
  let res := s.connections.foldl (fun (acc : ServerState × Bool) p =>
    if p.2 = deviceId && p.1 ≠ currentWs then
      if channelOpen acc.1 p.1 then
        let st1 := { acc.1 with emitted := acc.1.emitted ++
          [(p.1, Frame.duplicateConnection
              "Neue Verbindung erkannt - diese Verbindung wird geschlossen" false)] }
        ({ st1 with channels := mapInsert st1.channels p.1 false }, true)
      else (acc.1, true)
    else acc) (s, false)
  if res.2 then
    if channelOpen res.1 currentWs then
      { res.1 with emitted := res.1.emitted ++
        [(currentWs, Frame.duplicateConnection "Ältere Verbindung wurde geschlossen" true)] }
    else res.1
  else res.1

/-- The `ws.on('close')` handler (lines 535-571); `deviceId` is the value
captured by the connection's closure. -/
def handleClose (ws : Nat) (deviceId : String) (now : Nat) (s : ServerState) :
    ServerState :=
  let s0 := { s with channels := mapInsert s.channels ws false }
  let s1 :=
    match mapLookup s0.devices deviceId with
    | none => s0
    | some dev =>
      let dev1 := { dev with online := false, lastSeen := now, ws := none }
      let sA := { s0 with devices := mapInsert s0.devices deviceId dev1 }
      match dev.roomId with
      | some rid =>
        match mapLookup sA.rooms rid with
        | some room =>
          let sB := broadcastToRoom rid
            (.deviceLeftF deviceId (jsOr dev.customName dev.name)
              ((room.devices.length : Int) - 1) (some "Verbindung getrennt"))
            (some deviceId) sA
          broadcastDeviceList rid sB
        | none => sA
      | none => sA
  { s1 with connections := mapErase s1.connections ws }

/-- The device-expiry part of the janitor interval (lines 1728-1751), for
one device: remove an expired offline device from its room (deleting the
room when emptied), close its socket if one is somehow still open, and
drop it from the registry. -/
def janitorExpireDevice (did : String) (now : Nat) (s : ServerState) : ServerState :=
  match mapLookup s.devices did with
  | none => s
  | some dev =>
    let timeout := if dev.pinned then 24 * 60 * 60 * 1000 else 30 * 60 * 1000
    if now - dev.lastSeen > timeout && !dev.online then
      let s1 :=
        match dev.roomId with
        | some rid =>
          match mapLookup s.rooms rid with
          | some room =>
            let room1 := { room with devices := setDel room.devices did }
            if room1.devices.isEmpty then { s with rooms := mapErase s.rooms rid }
            else { s with rooms := mapInsert s.rooms rid room1 }
          | none => s
        | none => s
      let s2 :=
        match dev.ws with
        | some c =>
          if channelOpen s1 c then { s1 with channels := mapInsert s1.channels c false }
          else s1
        | none => s1
      { s2 with devices := mapErase s2.devices did }
    else s

/-! ## The step relation

One step is one complete run of a handler (connection arrival, socket
close, one inbound frame, or one janitor action).  Fresh-identifier side
conditions record that `generateRoomId` mints unused keys and that a new
socket is a new channel identifier; the close step fires for a registered
connection, as the closure-captured `deviceId` is the one stored in
`connections` at registration. -/
inductive Step : ServerState → ServerState → Prop
  | connect (ws : Nat) (ua ip lang : String) (now : Nat) (s : ServerState) :
      mapLookup s.channels ws = none →
      Step s (handleConnection ws ua ip lang now s)
  | close (ws : Nat) (did : String) (now : Nat) (s : ServerState) :
      mapLookup s.connections ws = some did →
      Step s (handleClose ws did now s)
  | joinRoom (did : String) (msg : RoomMsg) (s : ServerState) :
      Step s (handleJoinRoom did msg s)
  | createRoom (did : String) (msg : RoomMsg) (fresh : String) (now : Nat)
      (s : ServerState) :
      mapLookup s.rooms fresh = none →
      Step s (handleCreateRoom did msg fresh now s)
  | leaveRoom (did : String) (s : ServerState) :
      Step s (handleLeaveRoom did s)
  | deviceInfo (did : String) (msg : DeviceInfoMsg) (now : Nat) (s : ServerState) :
      Step s (handleDeviceInfo did msg now s)
  | updateName (did newName : String) (now : Nat) (s : ServerState) :
      Step s (handleUpdateDeviceName did newName now s)
  | togglePin (did tid : String) (s : ServerState) :
      Step s (handleTogglePinDevice did tid s)
  | offer (sid : String) (msg : FileTransferMsg) (freshId : String) (now : Nat)
      (s : ServerState) :
      Step s (handleFileTransfer sid msg freshId now s)
  | chunk (msg : FileChunkMsg) (now : Nat) (s : ServerState) :
      Step s (handleFileChunk msg now s)
  | cancel (tid : String) (s : ServerState) :
      Step s (handleFileCancel tid s)
  | complete (tid : String) (s : ServerState) :
      Step s (handleFileComplete tid s)
  | transferCompleteMsg (tid : String) (s : ServerState) :
      Step s (handleTransferCompleteMsg tid s)
  | reqMissing (did : String) (msg : ReqMissingMsg) (s : ServerState) :
      Step s (handleRequestMissingChunks did msg s)
  | expireDevice (did : String) (now : Nat) (s : ServerState) :
      Step s (janitorExpireDevice did now s)
  | sweep (now : Nat) (s : ServerState) :
      Step s (janitorTransferSweep now s)

/-- States reachable from the fresh-worker state. -/
def Reachable (s : ServerState) : Prop :=
  Relation.ReflTransGen Step initState s

/-! ## Frame classifiers and derived notions used by the properties -/

/-- Is this a `duplicate_connection` frame? -/
def isDuplicateFrame (p : Nat × Frame) : Bool :=
  match p.2 with
  | .duplicateConnection _ _ => true
  | _ => false

/-- Is this a `fileComplete` frame for the given transfer? -/
def isFileCompleteFor (tid : String) (p : Nat × Frame) : Bool :=
  match p.2 with
  | .fileCompleteF tid' _ _ _ _ _ => tid' = tid
  | _ => false

/-- Is this a `transferComplete` frame for the given transfer? -/
def isTransferCompleteFor (tid : String) (p : Nat × Frame) : Bool :=
  match p.2 with
  | .transferCompleteF tid' _ _ => tid' = tid
  | _ => false

/-- A strict base-64 string: every character in the base-64 alphabet. -/
def isStrictBase64 (p : String) : Bool := p.data.all isBase64Char

/-- Process a list of inbound `fileChunk` frames in arrival order. -/
def processChunks (msgs : List FileChunkMsg) (now : Nat) (s : ServerState) : ServerState :=
  msgs.foldl (fun st m => handleFileChunk m now st) s

/-- The concatenation of the per-index payloads in index order —
the expected assembled file. -/
def assembleAll (payload : Nat → String) (N : Nat) : String :=
  String.join ((List.range N).map payload)

/-- The indices below `N` that hold a buffered chunk. -/
def bufferedIdx (arr : List (Option String)) (N : Nat) : List Nat :=
  (List.range N).filter (fun i => (arrayGet arr i).isSome)

/-- The fixed data of one chunked transfer under way: parties, channels,
primary file, declared chunk count, per-index payloads and the advertised
`fileSize` field of the chunk frames. -/
structure ChunkRun where
  tid : String
  sid : String
  rid : String
  sc : Nat
  rc : Nat
  f0 : FileMeta
  fromName : String
  rname : String
  N : Nat
  payload : Nat → String
  fsize : Nat

/-- The `fileChunk` frame the sender sends for index `i`. -/
def ChunkRun.msg (cr : ChunkRun) (i : Nat) : FileChunkMsg :=
  ⟨cr.tid, i, cr.N, cr.payload i, cr.fsize⟩

/-- All payloads of the run are strict base-64. -/
def ChunkRun.Base64 (cr : ChunkRun) : Prop :=
  ∀ i, i < cr.N → isStrictBase64 (cr.payload i) = true

/-- The streaming invariant: after the distinct in-range indices `done`
have been processed, the transfer holds exactly their payloads, counts
them, and no completion frame has been emitted yet. -/
def ChunkRun.Inv (cr : ChunkRun) (done : List Nat) (s : ServerState) : Prop :=
  ∃ t arr,
    mapLookup s.fileTransfers cr.tid = some t ∧
    t.chunks = some arr ∧
    t.receivedChunks = done.length ∧
    t.fromDeviceId = cr.sid ∧
    t.targetDeviceId = cr.rid ∧
    t.files = [cr.f0] ∧
    t.fromDevice = cr.fromName ∧
    (∀ i, arrayGet arr i = if i ∈ done then some (cr.payload i) else none) ∧
    arr.length ≤ cr.N ∧
    s.emitted.filter (isFileCompleteFor cr.tid) = [] ∧
    s.emitted.filter (isTransferCompleteFor cr.tid) = []

/-- The environment the run relies on: sender and receiver registered with
their channels, the receiver's channel open. -/
def ChunkRun.Env (cr : ChunkRun) (s : ServerState) : Prop :=
  ∃ snd rcv,
    mapLookup s.devices cr.sid = some snd ∧ snd.ws = some cr.sc ∧
    mapLookup s.devices cr.rid = some rcv ∧ rcv.ws = some cr.rc ∧
    jsOr rcv.customName rcv.name = cr.rname ∧
    channelOpen s cr.rc = true ∧ channelOpen s cr.sc = true

/-! ## Invariants for room membership (claim C10) -/

/-- Every room record sits at the map key equal to its `id` field. -/
def WellKeyedRooms (s : ServerState) : Prop :=
  ∀ k r, mapLookup s.rooms k = some r → r.id = k

/-- Every member of every room is a registered device whose `roomId` points
back at that room — so a device can be a member of at most one room. -/
def RoomInv (s : ServerState) : Prop :=
  ∀ k r, mapLookup s.rooms k = some r →
    ∀ did, did ∈ r.devices →
      ∃ dev, mapLookup s.devices did = some dev ∧ dev.roomId = some k

/-- The room map, being built by `Map.set`/`Map.delete`, has no duplicate
keys. -/
def RoomKeysNodup (s : ServerState) : Prop := (s.rooms.map Prod.fst).Nodup

/-- The conjunction of the room-membership invariants. -/
def GoodState (s : ServerState) : Prop := WellKeyedRooms s ∧ RoomKeysNodup s ∧ RoomInv s

/-- `did` is a member of no room. -/
def NotMember (s : ServerState) (did : String) : Prop :=
  ∀ k r, mapLookup s.rooms k = some r → did ∉ r.devices

/-! ## Concrete scenario states used by counterexamples and witnesses -/

namespace Scenario

/-- User agent of the first (sender) client. -/
def uaWin : String := "Mozilla Windows Chrome"

/-- User agent of the second (receiver) client. -/
def uaLinux : String := "Mozilla Linux Firefox"

/-- The sender's derived device id. -/
def senderId : String := generateStableDeviceId uaWin "1.1.1.1" "de"

/-- The receiver's derived device id. -/
def receiverId : String := generateStableDeviceId uaLinux "2.2.2.2" "de"

/-- Both clients connected (channels 1 and 2). -/
def afterConnects : ServerState :=
  handleConnection 2 uaLinux "2.2.2.2" "de" 101
    (handleConnection 1 uaWin "1.1.1.1" "de" 100 initState)

/-- The sender created room `Foo` (minted id `room-1-abc`). -/
def created : ServerState :=
  handleCreateRoom senderId ⟨"Foo"⟩ "room-1-abc" 102 afterConnects

/-- The receiver joined by display name (case-insensitively, with spaces). -/
def roomed : ServerState := handleJoinRoom receiverId ⟨" FOO "⟩ created

/-- The sender offered `x.txt` (9 bytes, transfer `t1`) to the receiver. -/
def offered : ServerState :=
  handleFileTransfer senderId ⟨receiverId, [⟨"x.txt", 9, "text/plain"⟩], some "t1"⟩
    "fresh" 103 roomed

/-- A chunk frame of the 3-chunk run for `t1`. -/
def chunkMsg (i : Nat) (p : String) : FileChunkMsg := ⟨"t1", i, 3, p, 9⟩

/-- The first chunk of `t1` has been handled. -/
def afterFirstChunk : ServerState := handleFileChunk (chunkMsg 0 "YWJj") 104 offered

/-- Chunks 0 and 2 of the 3-chunk run have been handled (1 is missing). -/
def partialChunks : ServerState :=
  handleFileChunk (chunkMsg 2 "Z2hp") 104 afterFirstChunk

/-- The receiver asked for re-emission of indices 0, 1 and 2. -/
def afterRequest : ServerState :=
  handleRequestMissingChunks receiverId ⟨"t1", [0, 1, 2], 3⟩ partialChunks

/-- `fileCancel` for `t1` handled once. -/
def cancelledOnce : ServerState := handleFileCancel "t1" offered

/-- `fileCancel` for `t1` handled twice. -/
def cancelledTwice : ServerState := handleFileCancel "t1" cancelledOnce

/-- A second socket (channel 2) connects with the first client's exact
identification material while channel 1 is still open and bound. -/
def dupSecond : ServerState :=
  handleConnection 2 uaWin "1.1.1.1" "de" 105
    (handleConnection 1 uaWin "1.1.1.1" "de" 100 initState)

/-- A 1-chunk transfer whose only chunk arrives twice. -/
def dupChunkTwice : ServerState :=
  handleFileChunk ⟨"t1", 0, 1, "QQ==", 9⟩ 105
    (handleFileChunk ⟨"t1", 0, 1, "QQ==", 9⟩ 105 offered)

/-- Join attempt that carries the server-minted room id instead of the name. -/
def joinById : ServerState := handleJoinRoom receiverId ⟨"room-1-abc"⟩ created

/-- The room record stored by `created`. -/
def fooRoom : Room :=
  { id := "room-1-abc", name := "Foo", created := 102, createdBy := senderId,
    devices := [senderId] }

/-- The transfer record stored for `t1` by the offer. -/
def t1Record : Transfer :=
  { files := [{ name := "x.txt", size := 9, type := "text/plain" }],
    fromDevice := "Windows PC (Chrome)", fromDeviceId := senderId,
    targetDeviceId := receiverId, timestamp := 103, totalSize := 9,
    status := "pending", chunks := some [], receivedChunks := 0 }

end Scenario

/-- `s'` differs from `s` only by frames appended to the delivery log:
the broadcast helpers change nothing else. -/
def OnlyEmits (s s' : ServerState) : Prop :=
  s'.rooms = s.rooms ∧ s'.devices = s.devices ∧ s'.channels = s.channels ∧
  s'.connections = s.connections ∧ s'.fileTransfers = s.fileTransfers ∧
  s'.currentMemoryUsage = s.currentMemoryUsage ∧
  ∃ tl, s'.emitted = s.emitted ++ tl

namespace Scenario

/-- The sender's device record in the `roomed` state. -/
def senderDev : Device :=
  { id := senderId, ws := some 1, name := "Windows PC (Chrome)", customName := none,
    type := "desktop", platform := "Windows", browser := "Chrome",
    userAgent := uaWin, pinned := false, online := true, lastSeen := 100,
    roomId := some "room-1-abc", connectionStrength := "good", ip := "1.1.1.1" }

/-- The receiver's device record in the `roomed` state. -/
def receiverDev : Device :=
  { id := receiverId, ws := some 2, name := "Linux PC (Firefox)", customName := none,
    type := "desktop", platform := "Linux", browser := "Firefox",
    userAgent := uaLinux, pinned := false, online := true, lastSeen := 101,
    roomId := some "room-1-abc", connectionStrength := "good", ip := "2.2.2.2" }

/-- The receiver's device record before joining any room. -/
def receiverDev0 : Device := { receiverDev with roomId := none }

/-- The concrete 3-chunk run used as the round-trip witness: payloads
`base64("abc")`, `base64("def")`, `base64("ghi")`. -/
def c1run : ChunkRun :=
  { tid := "t1", sid := senderId, rid := receiverId, sc := 1, rc := 2,
    f0 := { name := "x.txt", size := 9, type := "text/plain" },
    fromName := "Windows PC (Chrome)", rname := "Linux PC (Firefox)", N := 3,
    payload := fun i => ["YWJj", "ZGVm", "Z2hp"].getD i "", fsize := 9 }

end Scenario

/-! # Theorems

First the association-list laws, then auxiliary lemmas, then one theorem
(with witness where hypotheses occur) per claim. -/

theorem mapLookup_insert_self {κ α : Type} [DecidableEq κ] (m : List (κ × α)) (k : κ) (v : α) :
    mapLookup (mapInsert m k v) k = some v := by
  induction m with
  | nil => simp [mapInsert, mapLookup]
  | cons p rest ih =>
    obtain ⟨k', v'⟩ := p
    by_cases h : k' = k <;> simp [mapInsert, mapLookup, h, ih]

theorem mapLookup_insert_ne {κ α : Type} [DecidableEq κ] (m : List (κ × α)) (k k' : κ) (v : α)
    (h : k ≠ k') : mapLookup (mapInsert m k v) k' = mapLookup m k' := by
  induction m with
  | nil => simp [mapInsert, mapLookup, h]
  | cons p rest ih =>
    obtain ⟨k₀, v₀⟩ := p
    by_cases hk : k₀ = k
    · subst hk; simp [mapInsert, mapLookup, h]
    · by_cases hk' : k₀ = k' <;> simp [mapInsert, mapLookup, hk, hk', ih, Ne.symm h]

theorem mapLookup_insert {κ α : Type} [DecidableEq κ] (m : List (κ × α)) (k k' : κ) (v : α) :
    mapLookup (mapInsert m k v) k' = if k = k' then some v else mapLookup m k' := by
  by_cases h : k = k'
  · subst h; simp [mapLookup_insert_self]
  · simp [h, mapLookup_insert_ne m k k' v h]

theorem mapLookup_erase_ne {κ α : Type} [DecidableEq κ] (m : List (κ × α)) (k k' : κ)
    (h : k ≠ k') : mapLookup (mapErase m k) k' = mapLookup m k' := by
  induction m with
  | nil => simp [mapErase]
  | cons p rest ih =>
    obtain ⟨k₀, v₀⟩ := p
    by_cases hk : k₀ = k
    · subst hk; simp [mapErase, mapLookup, h]
    · by_cases hk' : k₀ = k' <;> simp [mapErase, mapLookup, hk, hk', ih, Ne.symm h]

/-- C2: the memory-governor accounting claim fails on the code.  The offer
itself creates the transfer with `chunks: []` — an allocated, truthy buffer
— so `handleFileChunk`'s `if (!transfer.chunks)` initialisation branch,
the only place that would add `fileSize` to the in-flight counter, never
runs.  After the first chunk of `t1` (advertised `fileSize` 9) the
transfer holds buffers and `totalSize = 9`, yet the counter is still `0`,
not the sum (9) over buffer-holding non-terminal transfers required by the
invariant. -/
theorem c2_first_chunk_never_allocates :
    (mapLookup Scenario.offered.fileTransfers "t1").map
        (fun t => (t.chunks, t.totalSize)) = some (some [], 9) ∧
    Scenario.offered.currentMemoryUsage = 0 ∧
    (mapLookup Scenario.afterFirstChunk.fileTransfers "t1").map
        (fun t => (t.chunks.isSome, t.totalSize, t.receivedChunks, t.status)) =
      some (true, 9, 1, "pending") ∧
    Scenario.afterFirstChunk.currentMemoryUsage = 0 := by decide

/-- C3: with chunks 0 and 2 of a 3-chunk transfer buffered and the
receiver requesting indices {0, 1, 2}, the server re-emits exactly the two
still-buffered chunks — but both frames are written to channel 1, the
*sender's* socket (`sender.ws.send`), and the receiver's channel 2
receives nothing.  The requesting receiver's id appears only inside the
frames as `targetDeviceId`. -/
theorem c3_reemission_goes_to_sender :
    Scenario.afterRequest.emitted.drop Scenario.partialChunks.emitted.length =
      [(1, .fileChunkF Scenario.receiverId "t1" 0 0 3 "YWJj" 9),
       (1, .fileChunkF Scenario.receiverId "t1" 0 2 3 "Z2hp" 9)] ∧
    (mapLookup Scenario.afterRequest.devices Scenario.senderId).map Device.ws =
      some (some 1) ∧
    (mapLookup Scenario.afterRequest.devices Scenario.receiverId).map Device.ws =
      some (some 2) ∧
    (Scenario.afterRequest.emitted.drop Scenario.partialChunks.emitted.length).filter
        (fun p => p.1 = 2) = [] := by decide

/-- C4: when a second socket (channel 2) arrives for a device id whose
previous channel 1 is still open and bound, the connection handler sends
no `duplicate_connection` frame to either side and never closes channel 1
(`checkForDuplicateConnections` has no call site); the only part of the
claim the code does perform is rebinding the device to the new channel. -/
theorem c4_no_duplicate_connection_handling :
    Scenario.dupSecond.emitted.filter isDuplicateFrame = [] ∧
    channelOpen Scenario.dupSecond 1 = true ∧
    mapLookup Scenario.dupSecond.connections 1 = some Scenario.senderId ∧
    mapLookup Scenario.dupSecond.connections 2 = some Scenario.senderId ∧
    (mapLookup Scenario.dupSecond.devices Scenario.senderId).map Device.ws =
      some (some 2) := by decide

/-- C7: `fileCancel` on the existing transfer `t1` (buffers allocated,
`totalSize` 9, nothing ever added to the governor) leaves the transfer in
the map — `updateMemoryUsage` raises before `fileTransfers.delete` — while
the counter drops to -9; a second `fileCancel` is not a no-op: it deducts
again, to -18. -/
theorem c7_cancel_neither_deletes_nor_is_idempotent :
    (mapLookup Scenario.cancelledOnce.fileTransfers "t1").isSome = true ∧
    Scenario.cancelledOnce.currentMemoryUsage = -9 ∧
    (mapLookup Scenario.cancelledTwice.fileTransfers "t1").isSome = true ∧
    Scenario.cancelledTwice.currentMemoryUsage = -18 := by decide

/-- C5 (counterexample): the user agent `"IPHONE"` does not match the
case-sensitive class `iPhone|iPad|iPod`, yet the hasher's own
case-insensitive test classifies it as iOS: its id ignores the client
address and is prefixed `ios-`, not `device-` — refuting the claim's
"other userAgents incorporate the address and yield ids prefixed
device-". -/
theorem c5_counterexample_uppercase_ua :
    iosRegexTest "IPHONE" = false ∧
    generateStableDeviceId "IPHONE" "1.2.3.4" "" =
      generateStableDeviceId "IPHONE" "5.6.7.8" "" ∧
    jsStartsWith (generateStableDeviceId "IPHONE" "1.2.3.4" "") "ios-" = true ∧
    jsStartsWith (generateStableDeviceId "IPHONE" "1.2.3.4" "") "device-" = false := by
  decide

/-- C6 (counterexample): room `Foo` exists with server-minted id
`room-1-abc`; a registered device's `joinRoom` carrying that minted id is
answered `roomError "Raum nicht gefunden"` and the device is not added —
`handleJoinRoom` looks rooms up by display name only. -/
theorem c6_counterexample_join_by_id :
    (mapLookup Scenario.created.rooms "room-1-abc").map
        (fun r => (r.id, r.name, r.devices)) =
      some ("room-1-abc", "Foo", [Scenario.senderId]) ∧
    (mapLookup Scenario.joinById.rooms "room-1-abc").map Room.devices =
      some [Scenario.senderId] ∧
    (mapLookup Scenario.joinById.devices Scenario.receiverId).map Device.roomId =
      some none ∧
    Scenario.joinById.emitted.drop Scenario.created.emitted.length =
      [(2, .roomError "Raum nicht gefunden")] := by decide

/-- C8 (counterexample): a 1-chunk transfer whose index-0 chunk is
processed twice ends with `receivedChunks = 2`, exceeding the declared
`totalChunks = 1` and differing from the single distinct buffered chunk —
`receivedChunks++` counts frames, not distinct indices. -/
theorem c8_counterexample_duplicate_index :
    (mapLookup Scenario.dupChunkTwice.fileTransfers "t1").map
        (fun t => (t.receivedChunks,
          t.chunks.map (fun arr => (bufferedIdx arr 1).length), t.chunks)) =
      some (2, some 1, some [some "QQ=="]) := by decide

theorem sweepGo_append_skip (now : Nat) (pre l : List (String × Transfer))
    (s : ServerState)
    (hpre : ∀ k, k ∈ pre.map Prod.fst → ∀ t', mapLookup s.fileTransfers k = some t' →
      ¬ now - t'.timestamp > 60 * 60 * 1000) :
    sweepGo now (pre ++ l) s = sweepGo now l s := by
  induction pre with
  | nil => rfl
  | cons p rest ih =>
    obtain ⟨k, t0⟩ := p
    simp only [List.cons_append, sweepGo]
    cases hlk : mapLookup s.fileTransfers k with
    | none =>
      exact ih (fun k' hk' t' h => hpre k' (by simp [hk']) t' h)
    | some t' =>
      have hne := hpre k (by simp) t' hlk
      simp only [hne, if_false]
      exact ih (fun k' hk' t'' h => hpre k' (by simp [hk']) t'' h)

/-- C9: `updateMemoryUsage` adds its delta to `currentMemoryUsage` and then
raises a `ReferenceError` — its guard reads the bare identifier
`MAX_MEMORY_USAGE`, which is declared nowhere (the limit exists only as
`MEMORY_LIMITS.MAX_MEMORY_USAGE`).  Consequently every handler calling it
on a transfer whose `chunks` field is set stops at that call: `fileCancel`,
`fileComplete` and the `transferComplete` case change the counter but never
reach their `fileTransfers.delete`, and the janitor's transfer sweep aborts
at the first expired buffered transfer, deleting nothing. -/
theorem c9_release_always_raises :
    (∀ (delta : Int) (s : ServerState),
      updateMemoryUsage delta s =
        ({ s with currentMemoryUsage := s.currentMemoryUsage + delta }, true)) ∧
    (∀ (s : ServerState) (tid : String) (t : Transfer),
      mapLookup s.fileTransfers tid = some t → t.chunks.isSome →
      handleFileCancel tid s =
        { s with currentMemoryUsage := s.currentMemoryUsage - t.totalSize }) ∧
    (∀ (s : ServerState) (tid : String) (t : Transfer),
      mapLookup s.fileTransfers tid = some t → t.chunks.isSome →
      handleFileComplete tid s =
        { s with currentMemoryUsage := s.currentMemoryUsage - t.totalSize }) ∧
    (∀ (s : ServerState) (tid : String) (t : Transfer),
      mapLookup s.fileTransfers tid = some t → t.chunks.isSome →
      handleTransferCompleteMsg tid s =
        { s with currentMemoryUsage := s.currentMemoryUsage - t.totalSize }) ∧
    (∀ (now : Nat) (s : ServerState) (pre rest : List (String × Transfer))
        (tid : String) (t : Transfer),
      s.fileTransfers = pre ++ (tid, t) :: rest →
      (∀ k, k ∈ pre.map Prod.fst → ∀ t', mapLookup s.fileTransfers k = some t' →
        ¬ now - t'.timestamp > 60 * 60 * 1000) →
      mapLookup s.fileTransfers tid = some t →
      now - t.timestamp > 60 * 60 * 1000 → t.chunks.isSome →
      janitorTransferSweep now s =
        { s with currentMemoryUsage := s.currentMemoryUsage - t.totalSize }) := by
  refine ⟨fun delta s => rfl, ?_, ?_, ?_, ?_⟩
  · intro s tid t hlk hch
    obtain ⟨arr, harr⟩ := Option.isSome_iff_exists.mp hch
    simp [handleFileCancel, hlk, harr, updateMemoryUsage, sub_eq_add_neg]
  · intro s tid t hlk hch
    obtain ⟨arr, harr⟩ := Option.isSome_iff_exists.mp hch
    simp [handleFileComplete, hlk, harr, updateMemoryUsage, sub_eq_add_neg]
  · intro s tid t hlk hch
    obtain ⟨arr, harr⟩ := Option.isSome_iff_exists.mp hch
    simp [handleTransferCompleteMsg, hlk, harr, updateMemoryUsage, sub_eq_add_neg]
  · intro now s pre rest tid t hsplit hpre hlk hexp hch
    obtain ⟨arr, harr⟩ := Option.isSome_iff_exists.mp hch
    unfold janitorTransferSweep
    rw [hsplit, sweepGo_append_skip now pre _ s hpre]
    simp [sweepGo, hlk, hexp, harr, updateMemoryUsage, sub_eq_add_neg]
    exact hsplit

/-- C9 witness: the concrete offered transfer `t1` (buffers allocated,
`totalSize` 9): cancelling leaves the state identical except for the
counter, and a janitor sweep long after expiry does the same. -/
theorem c9_release_always_raises_witness :
    mapLookup Scenario.offered.fileTransfers "t1" = some Scenario.t1Record ∧
    Scenario.t1Record.chunks.isSome = true ∧
    handleFileCancel "t1" Scenario.offered =
      { Scenario.offered with currentMemoryUsage :=
          Scenario.offered.currentMemoryUsage - Scenario.t1Record.totalSize } ∧
    janitorTransferSweep 9999999999 Scenario.offered =
      { Scenario.offered with currentMemoryUsage :=
          Scenario.offered.currentMemoryUsage - Scenario.t1Record.totalSize } :=
  have h1 : mapLookup Scenario.offered.fileTransfers "t1" = some Scenario.t1Record := by
    decide
  have h2 : Scenario.t1Record.chunks.isSome = true := by decide
  ⟨h1, h2,
    c9_release_always_raises.2.1 Scenario.offered "t1" Scenario.t1Record h1 h2,
    c9_release_always_raises.2.2.2.2 9999999999 Scenario.offered []
      [] "t1" Scenario.t1Record (by decide) (by simp) h1 (by decide) h2⟩

theorem mapInsert_insert_self {κ α : Type} [DecidableEq κ] (m : List (κ × α)) (k : κ)
    (a b : α) : mapInsert (mapInsert m k a) k b = mapInsert m k b := by
  induction m with
  | nil => simp [mapInsert]
  | cons p rest ih =>
    obtain ⟨k', v'⟩ := p
    by_cases h : k' = k <;> simp [mapInsert, h, ih]

theorem listIsPre_mem {pat s : List Char} (h : listIsPre pat s = true) :
    ∀ c ∈ pat, c ∈ s := by
  induction pat generalizing s with
  | nil => intro c hc; cases hc
  | cons a as ih =>
    cases s with
    | nil => simp [listIsPre] at h
    | cons b bs =>
      simp only [listIsPre, Bool.and_eq_true, decide_eq_true_eq] at h
      intro c hc
      rcases List.mem_cons.mp hc with hc | hc
      · subst hc; rw [h.1]; exact List.mem_cons_self _ _
      · exact List.mem_cons_of_mem _ (ih h.2 c hc)

theorem cleanChunk_of_base64 {p : String} (hp : isStrictBase64 p = true) :
    cleanChunk p = p := by
  have hall : ∀ c ∈ p.data, isBase64Char c = true := by
    intro c hc
    exact List.all_eq_true.mp hp c hc
  have hpre : jsStartsWith p "data:" = false := by
    by_contra hne
    have h : listIsPre "data:".data p.data = true := by
      cases h : jsStartsWith p "data:"
      · exact absurd h hne
      · exact h
    have hcolon : (':' : Char) ∈ p.data := listIsPre_mem h ':' (by decide)
    have := hall ':' hcolon
    simp [isBase64Char] at this
  have hstrip : stripDataUrl p = p := by
    simp [stripDataUrl, hpre]
  rw [cleanChunk, hstrip, List.filter_eq_self.mpr hall]

theorem arrayGet_set_self (arr : List (Option String)) (i : Nat) (v : String) :
    arrayGet (arraySet arr i v) i = some v := by
  induction arr generalizing i with
  | nil =>
    induction i with
    | zero => rfl
    | succ n ih => simpa [arraySet, arrayGet, List.getD] using ih
  | cons a rest ih =>
    cases i with
    | zero => rfl
    | succ n => simpa [arraySet, arrayGet, List.getD] using ih n

theorem arrayGet_set_ne (arr : List (Option String)) (i j : Nat) (v : String)
    (h : i ≠ j) : arrayGet (arraySet arr i v) j = arrayGet arr j := by
  induction arr generalizing i j with
  | nil =>
    induction i generalizing j with
    | zero =>
      cases j with
      | zero => exact absurd rfl h
      | succ m => rfl
    | succ n ih =>
      cases j with
      | zero => rfl
      | succ m => simpa [arraySet, arrayGet, List.getD] using ih m (fun hh => h (by omega))
  | cons a rest ih =>
    cases i with
    | zero =>
      cases j with
      | zero => exact absurd rfl h
      | succ m => rfl
    | succ n =>
      cases j with
      | zero => rfl
      | succ m => simpa [arraySet, arrayGet, List.getD] using ih n m (fun hh => h (by omega))

theorem length_arraySet (arr : List (Option String)) (i : Nat) (v : String) :
    (arraySet arr i v).length = max arr.length (i + 1) := by
  induction arr generalizing i with
  | nil =>
    induction i with
    | zero => rfl
    | succ n ih => simp [arraySet, ih]
  | cons a rest ih =>
    cases i with
    | zero => simp [arraySet]
    | succ n => simp [arraySet, ih n]; omega

theorem arrayGet_lt_length {arr : List (Option String)} {i : Nat} {v : String}
    (h : arrayGet arr i = some v) : i < arr.length := by
  by_contra hge
  have : arr.getD i none = none := List.getD_eq_default _ _ (by omega)
  rw [arrayGet, this] at h
  cases h

theorem full_coverage {l : List Nat} {N : Nat} (hnd : l.Nodup) (hlen : l.length = N)
    (hsub : ∀ j ∈ l, j < N) : ∀ j, j < N → j ∈ l := by
  intro j hj
  have h1 : l.toFinset ⊆ Finset.range N := by
    intro x hx
    rw [List.mem_toFinset] at hx
    exact Finset.mem_range.mpr (hsub x hx)
  have hcard : (Finset.range N).card ≤ l.toFinset.card := by
    rw [List.toFinset_card_of_nodup hnd, hlen, Finset.card_range]
  have heq := Finset.eq_of_subset_of_card_le h1 hcard
  rw [← List.mem_toFinset, heq]
  exact Finset.mem_range.mpr hj

theorem arr_eq_range_map {arr : List (Option String)} {N : Nat} {f : Nat → String}
    (hlen : arr.length = N) (hget : ∀ i, i < N → arrayGet arr i = some (f i)) :
    arr = (List.range N).map (fun i => some (f i)) := by
  apply List.ext_getElem
  · simp [hlen]
  · intro i h1 h2
    have hi : i < N := by simpa [hlen] using h1
    have hv := hget i hi
    rw [arrayGet, List.getD_eq_getElem arr none h1] at hv
    simpa using hv

theorem arrayJoin_range_map (f : Nat → String) (N : Nat) :
    arrayJoin ((List.range N).map (fun i => some (f i))) = assembleAll f N := by
  simp only [arrayJoin, assembleAll, List.map_map]
  congr 1

theorem handleFileChunk_not_final {s : ServerState} {m : FileChunkMsg} {now : Nat}
    {t : Transfer} {arr : List (Option String)} {snd : Device} {sc : Nat}
    (hlk : mapLookup s.fileTransfers m.transferId = some t)
    (hch : t.chunks = some arr)
    (hsnd : mapLookup s.devices t.fromDeviceId = some snd)
    (hws : snd.ws = some sc)
    (hopen : channelOpen s sc = true)
    (hne : ¬ (t.receivedChunks + 1 = m.totalChunks)) :
    handleFileChunk m now s = { s with
      fileTransfers := mapInsert s.fileTransfers m.transferId
        { t with chunks := some (arraySet arr m.chunkIndex (cleanChunk m.data)),
                 receivedChunks := t.receivedChunks + 1 },
      emitted := s.emitted ++ [(sc, .uploadProgress m.transferId
        (jsRoundPct (t.receivedChunks + 1) m.totalChunks)
        (t.receivedChunks + 1) m.totalChunks)] } := by
  rw [channelOpen] at hopen
  simp only [handleFileChunk, hlk, hch, hsnd, hws, devEmit, emitTo, channelOpen,
    hne, if_false, hopen, if_true]

theorem handleFileChunk_final {s : ServerState} {m : FileChunkMsg} {now : Nat}
    {t : Transfer} {arr : List (Option String)} {snd rcv : Device} {sc rc : Nat}
    {f0 : FileMeta}
    (hlk : mapLookup s.fileTransfers m.transferId = some t)
    (hch : t.chunks = some arr)
    (hsnd : mapLookup s.devices t.fromDeviceId = some snd)
    (hws : snd.ws = some sc)
    (hscopen : channelOpen s sc = true)
    (hrcv : mapLookup s.devices t.targetDeviceId = some rcv)
    (hrws : rcv.ws = some rc)
    (hrcopen : channelOpen s rc = true)
    (hfiles : t.files = [f0])
    (heq : t.receivedChunks + 1 = m.totalChunks) :
    handleFileChunk m now s = { s with
      fileTransfers := mapInsert s.fileTransfers m.transferId
        { t with chunks := some (arraySet arr m.chunkIndex (cleanChunk m.data)),
                 receivedChunks := t.receivedChunks + 1,
                 status := "completed", endTime := some now },
      emitted := s.emitted ++
        [(sc, .uploadProgress m.transferId (jsRoundPct (t.receivedChunks + 1) m.totalChunks)
            (t.receivedChunks + 1) m.totalChunks),
         (rc, .fileCompleteF m.transferId f0.name
            (if f0.type = "" then "application/octet-stream" else f0.type) f0.size
            (arrayJoin (arraySet arr m.chunkIndex (cleanChunk m.data))) t.fromDevice),
         (sc, .transferCompleteF m.transferId f0.name (jsOr rcv.customName rcv.name))] } := by
  rw [channelOpen] at hscopen hrcopen
  simp only [handleFileChunk, hlk, hch, hsnd, hws, hrcv, hrws, hfiles, devEmit, emitTo,
    devChannelOpen, channelOpen, heq, if_true, hscopen, hrcopen, mapInsert_insert_self,
    List.append_assoc, List.cons_append, List.nil_append]

theorem handleFileTransfer_success {s : ServerState} {sid : String}
    {msg : FileTransferMsg} {freshId : String} {now : Nat} {snd rcv : Device}
    {sc rc : Nat} {f0 : FileMeta}
    (hsnd : mapLookup s.devices sid = some snd)
    (hrcv : mapLookup s.devices msg.targetDeviceId = some rcv)
    (hroom : snd.roomId = rcv.roomId)
    (hfiles : msg.files = [f0])
    (honline : rcv.online = true)
    (hrws : rcv.ws = some rc) (hrcopen : channelOpen s rc = true)
    (hsws : snd.ws = some sc) (hscopen : channelOpen s sc = true) :
    handleFileTransfer sid msg freshId now s = { s with
      fileTransfers := mapInsert s.fileTransfers (jsOr msg.transferId freshId)
        { files := msg.files, fromDevice := jsOr snd.customName snd.name,
          fromDeviceId := sid, targetDeviceId := msg.targetDeviceId,
          timestamp := now, totalSize := f0.size, status := "pending",
          chunks := some [], receivedChunks := 0 },
      emitted := s.emitted ++
        [(rc, .incomingFile msg.files (jsOr snd.customName snd.name) sid
            (jsOr msg.transferId freshId) f0.size),
         (sc, .transferStarted (jsOr rcv.customName rcv.name)
            (jsOr msg.transferId freshId))] } := by
  rw [channelOpen] at hscopen hrcopen
  simp only [handleFileTransfer, hsnd, hrcv, hroom, hfiles, honline, hrws, hsws,
    devEmit, emitTo, devChannelOpen, channelOpen, hscopen, hrcopen, if_true,
    ne_eq, not_true_eq_false, Bool.false_eq_true, if_false, Bool.true_and,
    List.append_assoc, List.cons_append, List.nil_append]

theorem chunkStep_partial (cr : ChunkRun) (done : List Nat) (i : Nat) (now : Nat)
    (s : ServerState)
    (hinv : cr.Inv done s) (henv : cr.Env s) (hbase : cr.Base64)
    (hi : i < cr.N) (hnotin : i ∉ done)
    (hlt : done.length + 1 < cr.N) :
    cr.Inv (done ++ [i]) (handleFileChunk (cr.msg i) now s) ∧
    cr.Env (handleFileChunk (cr.msg i) now s) := by
  obtain ⟨t, arr, hlk, hch, hrecv, hfrom, htarget, hfiles, hfromName, hget, hlen, hfc, htc⟩ :=
    hinv
  obtain ⟨snd, rcv, hsnd, hsws, hrcv, hrws, hrname, hrcopen, hscopen⟩ := henv
  have hclean : cleanChunk (cr.payload i) = cr.payload i := cleanChunk_of_base64 (hbase i hi)
  have hsnd' : mapLookup s.devices t.fromDeviceId = some snd := by rw [hfrom]; exact hsnd
  have hne : ¬ (t.receivedChunks + 1 = (cr.msg i).totalChunks) := by
    simp only [ChunkRun.msg]
    rw [hrecv]
    omega
  have heq := @handleFileChunk_not_final s (cr.msg i) now t arr snd cr.sc hlk hch hsnd'
    hsws hscopen hne
  rw [heq]
  simp only [ChunkRun.msg]
  rw [hclean]
  constructor
  · refine ⟨{ t with
        chunks := some (arraySet arr i (cr.payload i)),
        receivedChunks := t.receivedChunks + 1 },
      arraySet arr i (cr.payload i), ?_, rfl, ?_, ?_, ?_, ?_, ?_, ?_, ?_, ?_, ?_⟩
    · exact mapLookup_insert_self _ _ _
    · simp [hrecv]
    · exact hfrom
    · exact htarget
    · exact hfiles
    · exact hfromName
    · intro j
      by_cases hji : j = i
      · subst hji
        rw [arrayGet_set_self]
        simp
      · rw [arrayGet_set_ne arr i j _ (fun hh => hji hh.symm), hget j]
        simp [hji]
    · rw [length_arraySet]
      omega
    · simp [List.filter_append, hfc, isFileCompleteFor]
    · simp [List.filter_append, htc, isTransferCompleteFor]
  · exact ⟨snd, rcv, hsnd, hsws, hrcv, hrws, hrname, hrcopen, hscopen⟩

theorem chunkStep_final (cr : ChunkRun) (done : List Nat) (i : Nat) (now : Nat)
    (s : ServerState)
    (hinv : cr.Inv done s) (henv : cr.Env s) (hbase : cr.Base64)
    (hi : i < cr.N) (hdsub : ∀ j ∈ done, j < cr.N)
    (hnd : (done ++ [i]).Nodup)
    (hfin : done.length + 1 = cr.N) :
    (handleFileChunk (cr.msg i) now s).emitted.filter (isFileCompleteFor cr.tid) =
      [(cr.rc, .fileCompleteF cr.tid cr.f0.name
          (if cr.f0.type = "" then "application/octet-stream" else cr.f0.type)
          cr.f0.size (assembleAll cr.payload cr.N) cr.fromName)] ∧
    (handleFileChunk (cr.msg i) now s).emitted.filter (isTransferCompleteFor cr.tid) =
      [(cr.sc, .transferCompleteF cr.tid cr.f0.name cr.rname)] := by
  obtain ⟨t, arr, hlk, hch, hrecv, hfrom, htarget, hfiles, hfromName, hget, hlen, hfc, htc⟩ :=
    hinv
  obtain ⟨snd, rcv, hsnd, hsws, hrcv, hrws, hrname, hrcopen, hscopen⟩ := henv
  have hnotin : i ∉ done := by
    have h := (List.nodup_append.mp hnd).2.2
    intro hmem
    exact h hmem (List.mem_singleton_self i)
  have hclean : cleanChunk (cr.payload i) = cr.payload i := cleanChunk_of_base64 (hbase i hi)
  have hsnd' : mapLookup s.devices t.fromDeviceId = some snd := by rw [hfrom]; exact hsnd
  have hrcv' : mapLookup s.devices t.targetDeviceId = some rcv := by rw [htarget]; exact hrcv
  have hcnt : t.receivedChunks + 1 = (cr.msg i).totalChunks := by
    simp only [ChunkRun.msg]
    rw [hrecv]
    exact hfin
  have heq := @handleFileChunk_final s (cr.msg i) now t arr snd rcv cr.sc cr.rc cr.f0
    hlk hch hsnd' hsws hscopen hrcv' hrws hrcopen hfiles hcnt
  rw [heq]
  simp only [ChunkRun.msg]
  rw [hclean]
  -- the array now holds every index below N
  have hcover : ∀ j, j < cr.N → j ∈ done ++ [i] :=
    full_coverage hnd (by simp [hfin]) (by
      intro j hj
      rcases List.mem_append.mp hj with h | h
      · exact hdsub j h
      · simp at h; subst h; exact hi)
  have hmax : (arraySet arr i (cr.payload i)).length = cr.N := by
    rw [length_arraySet]
    have hN : 0 < cr.N := by omega
    have hm := hcover (cr.N - 1) (by omega)
    rcases List.mem_append.mp hm with h | h
    · have hsome : arrayGet arr (cr.N - 1) = some (cr.payload (cr.N - 1)) := by
        rw [hget]; simp [h]
      have := arrayGet_lt_length hsome
      omega
    · simp only [List.mem_singleton] at h
      omega
  have hgets : ∀ j, j < cr.N →
      arrayGet (arraySet arr i (cr.payload i)) j = some (cr.payload j) := by
    intro j hj
    by_cases hji : j = i
    · subst hji; exact arrayGet_set_self arr j (cr.payload j)
    · rw [arrayGet_set_ne arr i j _ (fun hh => hji hh.symm), hget j]
      have hjd : j ∈ done := by
        rcases List.mem_append.mp (hcover j hj) with h | h
        · exact h
        · simp only [List.mem_singleton] at h
          exact absurd h hji
      simp [hjd]
  have harr : arraySet arr i (cr.payload i) =
      (List.range cr.N).map (fun j => some (cr.payload j)) :=
    arr_eq_range_map hmax hgets
  rw [harr, arrayJoin_range_map, hfromName, hrname]
  constructor
  · simp [List.filter_append, hfc, isFileCompleteFor]
  · simp [List.filter_append, htc, isTransferCompleteFor]

theorem chunkRun_partial (cr : ChunkRun) (now : Nat) :
    ∀ (idxs done : List Nat) (s : ServerState),
      cr.Inv done s → cr.Env s → cr.Base64 →
      (∀ j ∈ idxs, j < cr.N) → (∀ j ∈ idxs, j ∉ done) → idxs.Nodup →
      done.length + idxs.length < cr.N →
      cr.Inv (done ++ idxs) (processChunks (idxs.map cr.msg) now s) ∧
      cr.Env (processChunks (idxs.map cr.msg) now s) := by
  intro idxs
  induction idxs with
  | nil =>
    intro done s hinv henv _ _ _ _ _
    simpa [processChunks] using ⟨hinv, henv⟩
  | cons i rest ih =>
    intro done s hinv henv hbase hsub hfresh hnd hlt
    simp only [List.length_cons] at hlt
    have hstep := chunkStep_partial cr done i now s hinv henv hbase
      (hsub i (List.mem_cons_self i rest)) (hfresh i (List.mem_cons_self i rest))
      (by omega)
    have hrest := ih (done ++ [i]) (handleFileChunk (cr.msg i) now s) hstep.1 hstep.2 hbase
      (fun j hj => hsub j (List.mem_cons_of_mem i hj))
      (fun j hj => by
        simp only [List.mem_append, List.mem_singleton]
        rintro (h | h)
        · exact hfresh j (List.mem_cons_of_mem i hj) h
        · subst h
          exact (List.nodup_cons.mp hnd).1 hj)
      (List.nodup_cons.mp hnd).2
      (by simp; omega)
    simpa [processChunks, List.append_assoc] using hrest

theorem chunkRun_final (cr : ChunkRun) (now : Nat) :
    ∀ (idxs done : List Nat) (s : ServerState),
      cr.Inv done s → cr.Env s → cr.Base64 →
      (∀ j ∈ done, j < cr.N) → (∀ j ∈ idxs, j < cr.N) →
      (done ++ idxs).Nodup →
      done.length + idxs.length = cr.N → idxs ≠ [] →
      (processChunks (idxs.map cr.msg) now s).emitted.filter (isFileCompleteFor cr.tid) =
        [(cr.rc, .fileCompleteF cr.tid cr.f0.name
            (if cr.f0.type = "" then "application/octet-stream" else cr.f0.type)
            cr.f0.size (assembleAll cr.payload cr.N) cr.fromName)] ∧
      (processChunks (idxs.map cr.msg) now s).emitted.filter (isTransferCompleteFor cr.tid) =
        [(cr.sc, .transferCompleteF cr.tid cr.f0.name cr.rname)] := by
  intro idxs
  induction idxs with
  | nil => intro done s _ _ _ _ _ _ _ hne; exact absurd rfl hne
  | cons i rest ih =>
    intro done s hinv henv hbase hdsub hsub hnd hfin hne
    cases rest with
    | nil =>
      have hstep := chunkStep_final cr done i now s hinv henv hbase
        (hsub i (List.mem_cons_self i []))
        hdsub (by simpa using hnd) (by simpa using hfin)
      simpa [processChunks] using hstep
    | cons i2 rest2 =>
      simp only [List.length_cons] at hfin
      have hndflat : (done ++ [i]).Nodup ∧ ∀ j ∈ i2 :: rest2, j ∉ done ++ [i] := by
        constructor
        · have h1 : done ++ i :: i2 :: rest2 = (done ++ [i]) ++ (i2 :: rest2) := by simp
          rw [h1] at hnd
          exact (List.nodup_append.mp hnd).1
        · intro j hj hmem
          have h1 : done ++ i :: i2 :: rest2 = (done ++ [i]) ++ (i2 :: rest2) := by simp
          rw [h1] at hnd
          exact (List.nodup_append.mp hnd).2.2 hmem hj
      have hstep := chunkStep_partial cr done i now s hinv henv hbase
        (hsub i (List.mem_cons_self i _))
        (by
          intro hmem
          have h1 : done ++ i :: i2 :: rest2 = (done ++ [i]) ++ (i2 :: rest2) := by simp
          rw [h1] at hnd
          have := (List.nodup_append.mp hnd).1
          have h2 := (List.nodup_append.mp this).2.2
          exact h2 hmem (List.mem_singleton_self i))
        (by omega)
      have hrest := ih (done ++ [i]) (handleFileChunk (cr.msg i) now s) hstep.1 hstep.2 hbase
        (by
          intro j hj
          rcases List.mem_append.mp hj with h | h
          · exact hdsub j h
          · simp only [List.mem_singleton] at h
            subst h
            exact hsub j (List.mem_cons_self j _))
        (fun j hj => hsub j (List.mem_cons_of_mem i hj))
        (by
          have h1 : (done ++ [i]) ++ (i2 :: rest2) = done ++ i :: i2 :: rest2 := by simp
          rw [h1]
          exact hnd)
        (by simp; omega)
        (by simp)
      simpa [processChunks, List.append_assoc] using hrest

/-- C1: chunk-reassembly round trip.  For a transfer whose offer succeeded
(sender and receiver registered in the same room, both channels usable and
the receiver's open, offer acknowledged), and whose sender then sends
exactly one `fileChunk` for each distinct index `0..N-1` — in any arrival
order (`idxs` is any permutation of `range N`), each with the same declared
`totalChunks = N` and a strict base-64 payload — the server delivers
exactly one `fileComplete` frame, on the receiver's channel, whose
`fileData` is the concatenation of the payloads in index order, and one
`transferComplete` frame for that transfer on the sender's channel. -/
theorem c1_chunk_reassembly_round_trip (cr : ChunkRun) (s0 : ServerState)
    (msg : FileTransferMsg) (freshId : String) (now now' : Nat) (idxs : List Nat)
    (snd rcv : Device)
    (hsnd : mapLookup s0.devices cr.sid = some snd)
    (hsws : snd.ws = some cr.sc) (hscopen : channelOpen s0 cr.sc = true)
    (htarget : msg.targetDeviceId = cr.rid)
    (hrcv : mapLookup s0.devices cr.rid = some rcv)
    (hrws : rcv.ws = some cr.rc) (hrcopen : channelOpen s0 cr.rc = true)
    (honline : rcv.online = true)
    (hroom : snd.roomId = rcv.roomId)
    (hfiles : msg.files = [cr.f0])
    (htid : jsOr msg.transferId freshId = cr.tid)
    (hfromName : cr.fromName = jsOr snd.customName snd.name)
    (hrname : jsOr rcv.customName rcv.name = cr.rname)
    (hfc0 : s0.emitted.filter (isFileCompleteFor cr.tid) = [])
    (htc0 : s0.emitted.filter (isTransferCompleteFor cr.tid) = [])
    (hbase : cr.Base64)
    (hperm : idxs.Perm (List.range cr.N))
    (hN : 0 < cr.N) :
    (processChunks (idxs.map cr.msg) now'
        (handleFileTransfer cr.sid msg freshId now s0)).emitted.filter
      (isFileCompleteFor cr.tid) =
      [(cr.rc, .fileCompleteF cr.tid cr.f0.name
          (if cr.f0.type = "" then "application/octet-stream" else cr.f0.type)
          cr.f0.size (assembleAll cr.payload cr.N) cr.fromName)] ∧
    (processChunks (idxs.map cr.msg) now'
        (handleFileTransfer cr.sid msg freshId now s0)).emitted.filter
      (isTransferCompleteFor cr.tid) =
      [(cr.sc, .transferCompleteF cr.tid cr.f0.name cr.rname)] := by
  have hrcv' : mapLookup s0.devices msg.targetDeviceId = some rcv := by
    rw [htarget]; exact hrcv
  have hoff := @handleFileTransfer_success s0 cr.sid msg freshId now snd rcv cr.sc cr.rc
    cr.f0 hsnd hrcv' hroom hfiles honline hrws hrcopen hsws hscopen
  rw [htid] at hoff
  rw [hoff]
  have hinv : cr.Inv [] ({ s0 with
      fileTransfers := mapInsert s0.fileTransfers cr.tid
        { files := msg.files, fromDevice := jsOr snd.customName snd.name,
          fromDeviceId := cr.sid, targetDeviceId := msg.targetDeviceId,
          timestamp := now, totalSize := cr.f0.size, status := "pending",
          chunks := some [], receivedChunks := 0 },
      emitted := s0.emitted ++
        [(cr.rc, .incomingFile msg.files (jsOr snd.customName snd.name) cr.sid cr.tid
            cr.f0.size),
         (cr.sc, .transferStarted (jsOr rcv.customName rcv.name) cr.tid)] }) := by
    refine ⟨_, [], mapLookup_insert_self _ _ _, rfl, rfl, rfl, htarget, hfiles,
      hfromName.symm, ?_, ?_, ?_, ?_⟩
    · intro j
      simp [arrayGet]
    · simp
    · simp [List.filter_append, hfc0, isFileCompleteFor]
    · simp [List.filter_append, htc0, isTransferCompleteFor]
  have henv : cr.Env ({ s0 with
      fileTransfers := mapInsert s0.fileTransfers cr.tid
        { files := msg.files, fromDevice := jsOr snd.customName snd.name,
          fromDeviceId := cr.sid, targetDeviceId := msg.targetDeviceId,
          timestamp := now, totalSize := cr.f0.size, status := "pending",
          chunks := some [], receivedChunks := 0 },
      emitted := s0.emitted ++
        [(cr.rc, .incomingFile msg.files (jsOr snd.customName snd.name) cr.sid cr.tid
            cr.f0.size),
         (cr.sc, .transferStarted (jsOr rcv.customName rcv.name) cr.tid)] }) :=
    ⟨snd, rcv, hsnd, hsws, hrcv, hrws, hrname, hrcopen, hscopen⟩
  have hlen : idxs.length = cr.N := by
    rw [hperm.length_eq, List.length_range]
  exact chunkRun_final cr now' idxs [] _ hinv henv hbase
    (by intro j hj; cases hj)
    (by intro j hj; exact List.mem_range.mp (hperm.mem_iff.mp hj))
    (by simpa using hperm.nodup_iff.mpr (List.nodup_range cr.N))
    (by simpa using hlen)
    (by intro h; rw [h] at hlen; simp at hlen; omega)

/-- C1 witness: the concrete 3-chunk transfer `t1` between the two
scenario devices, chunks arriving out of order (2, 0, 1); the receiver's
channel 2 gets precisely one `fileComplete` with the index-ordered
concatenation `base64("abcdefghi")`, the sender's channel 1 one
`transferComplete`. -/
theorem c1_chunk_reassembly_round_trip_witness :
    ([2, 0, 1] : List Nat).Perm (List.range 3) ∧
    assembleAll Scenario.c1run.payload 3 = "YWJjZGVmZ2hp" ∧
    ((processChunks ([2, 0, 1].map Scenario.c1run.msg) 104
        (handleFileTransfer Scenario.c1run.sid
          ⟨Scenario.receiverId, [{ name := "x.txt", size := 9, type := "text/plain" }],
            some "t1"⟩ "fresh" 103 Scenario.roomed)).emitted.filter
          (isFileCompleteFor Scenario.c1run.tid) =
        [(Scenario.c1run.rc, .fileCompleteF Scenario.c1run.tid Scenario.c1run.f0.name
            (if Scenario.c1run.f0.type = "" then "application/octet-stream"
             else Scenario.c1run.f0.type)
            Scenario.c1run.f0.size (assembleAll Scenario.c1run.payload Scenario.c1run.N)
            Scenario.c1run.fromName)] ∧
      (processChunks ([2, 0, 1].map Scenario.c1run.msg) 104
        (handleFileTransfer Scenario.c1run.sid
          ⟨Scenario.receiverId, [{ name := "x.txt", size := 9, type := "text/plain" }],
            some "t1"⟩ "fresh" 103 Scenario.roomed)).emitted.filter
          (isTransferCompleteFor Scenario.c1run.tid) =
        [(Scenario.c1run.sc, .transferCompleteF Scenario.c1run.tid Scenario.c1run.f0.name
            Scenario.c1run.rname)]) :=
  ⟨by decide, by decide,
    c1_chunk_reassembly_round_trip Scenario.c1run Scenario.roomed
      ⟨Scenario.receiverId, [{ name := "x.txt", size := 9, type := "text/plain" }],
        some "t1"⟩ "fresh" 103 104 [2, 0, 1] Scenario.senderDev Scenario.receiverDev
      (by decide) (by decide) (by decide) (by decide) (by decide) (by decide) (by decide)
      (by decide) (by decide) (by decide) (by decide) (by decide) (by decide) (by decide)
      (by decide) (by unfold ChunkRun.Base64; decide) (by decide) (by decide)⟩

/-- C8 (amended): during streaming under the distinct-in-range discipline —
the offer succeeded and the chunks processed so far carry pairwise-distinct
indices below `totalChunks = N`, fewer than `N` of them — the transfer
satisfies the claimed invariant: `receivedChunks` equals the number of
chunks processed, equals the number of distinct buffered indices, is at
most `N`, and every buffered index lies in `[0, N)`.  (The counterexample
shows the code does not keep this when an index is re-sent.) -/
theorem c8_amended_chunk_invariant (cr : ChunkRun) (s0 : ServerState)
    (msg : FileTransferMsg) (freshId : String) (now now' : Nat) (idxs : List Nat)
    (snd rcv : Device)
    (hsnd : mapLookup s0.devices cr.sid = some snd)
    (hsws : snd.ws = some cr.sc) (hscopen : channelOpen s0 cr.sc = true)
    (htarget : msg.targetDeviceId = cr.rid)
    (hrcv : mapLookup s0.devices cr.rid = some rcv)
    (hrws : rcv.ws = some cr.rc) (hrcopen : channelOpen s0 cr.rc = true)
    (honline : rcv.online = true)
    (hroom : snd.roomId = rcv.roomId)
    (hfiles : msg.files = [cr.f0])
    (htid : jsOr msg.transferId freshId = cr.tid)
    (hfromName : cr.fromName = jsOr snd.customName snd.name)
    (hrname : jsOr rcv.customName rcv.name = cr.rname)
    (hfc0 : s0.emitted.filter (isFileCompleteFor cr.tid) = [])
    (htc0 : s0.emitted.filter (isTransferCompleteFor cr.tid) = [])
    (hbase : cr.Base64)
    (hsub : ∀ j ∈ idxs, j < cr.N) (hnd : idxs.Nodup) (hlt : idxs.length < cr.N) :
    ∃ t arr,
      mapLookup (processChunks (idxs.map cr.msg) now'
          (handleFileTransfer cr.sid msg freshId now s0)).fileTransfers cr.tid = some t ∧
      t.chunks = some arr ∧
      t.receivedChunks = idxs.length ∧
      t.receivedChunks = (bufferedIdx arr cr.N).length ∧
      t.receivedChunks ≤ cr.N ∧
      (∀ i, (arrayGet arr i).isSome = true → i < cr.N) := by
  have hrcv' : mapLookup s0.devices msg.targetDeviceId = some rcv := by
    rw [htarget]; exact hrcv
  have hoff := @handleFileTransfer_success s0 cr.sid msg freshId now snd rcv cr.sc cr.rc
    cr.f0 hsnd hrcv' hroom hfiles honline hrws hrcopen hsws hscopen
  rw [htid] at hoff
  rw [hoff]
  have hinv : cr.Inv [] ({ s0 with
      fileTransfers := mapInsert s0.fileTransfers cr.tid
        { files := msg.files, fromDevice := jsOr snd.customName snd.name,
          fromDeviceId := cr.sid, targetDeviceId := msg.targetDeviceId,
          timestamp := now, totalSize := cr.f0.size, status := "pending",
          chunks := some [], receivedChunks := 0 },
      emitted := s0.emitted ++
        [(cr.rc, .incomingFile msg.files (jsOr snd.customName snd.name) cr.sid cr.tid
            cr.f0.size),
         (cr.sc, .transferStarted (jsOr rcv.customName rcv.name) cr.tid)] }) := by
    refine ⟨_, [], mapLookup_insert_self _ _ _, rfl, rfl, rfl, htarget, hfiles,
      hfromName.symm, ?_, ?_, ?_, ?_⟩
    · intro j
      simp [arrayGet]
    · simp
    · simp [List.filter_append, hfc0, isFileCompleteFor]
    · simp [List.filter_append, htc0, isTransferCompleteFor]
  have henv : cr.Env ({ s0 with
      fileTransfers := mapInsert s0.fileTransfers cr.tid
        { files := msg.files, fromDevice := jsOr snd.customName snd.name,
          fromDeviceId := cr.sid, targetDeviceId := msg.targetDeviceId,
          timestamp := now, totalSize := cr.f0.size, status := "pending",
          chunks := some [], receivedChunks := 0 },
      emitted := s0.emitted ++
        [(cr.rc, .incomingFile msg.files (jsOr snd.customName snd.name) cr.sid cr.tid
            cr.f0.size),
         (cr.sc, .transferStarted (jsOr rcv.customName rcv.name) cr.tid)] }) :=
    ⟨snd, rcv, hsnd, hsws, hrcv, hrws, hrname, hrcopen, hscopen⟩
  have hrun := chunkRun_partial cr now' idxs [] _ hinv henv hbase hsub
    (by intro j _ h; cases h) hnd (by simpa using hlt)
  obtain ⟨t, arr, hlk, hch, hrecv, _, _, _, _, hget, hlen, _, _⟩ := hrun.1
  refine ⟨t, arr, hlk, hch, by simpa using hrecv, ?_, ?_, ?_⟩
  · have h1 : bufferedIdx arr cr.N =
        (List.range cr.N).filter (fun i => decide (i ∈ idxs)) := by
      unfold bufferedIdx
      apply List.filter_congr
      intro i hi
      rw [hget i]
      by_cases h : i ∈ idxs <;> simp [h]
    rw [h1]
    have hnd1 : ((List.range cr.N).filter (fun i => decide (i ∈ idxs))).Nodup :=
      List.Nodup.filter _ (List.nodup_range cr.N)
    have hmem : ∀ x, x ∈ (List.range cr.N).filter (fun i => decide (i ∈ idxs)) ↔
        x ∈ idxs := by
      intro x
      simp only [List.mem_filter, List.mem_range, decide_eq_true_eq]
      constructor
      · exact fun h => h.2
      · exact fun h => ⟨hsub x h, h⟩
    have hperm : ((List.range cr.N).filter (fun i => decide (i ∈ idxs))).Perm idxs :=
      (List.perm_ext_iff_of_nodup hnd1 hnd).mpr hmem
    rw [hperm.length_eq]
    simpa using hrecv
  · simp only [List.nil_append] at hrecv
    omega
  · intro i hi
    rw [hget i] at hi
    by_cases h : i ∈ idxs
    · exact hsub i h
    · simp [h] at hi

/-- C8 witness: chunks 2 and 0 of the 3-chunk scenario transfer processed
(distinct, in range, fewer than 3): the invariant conclusion holds at this
concrete run. -/
theorem c8_amended_chunk_invariant_witness :
    ([2, 0] : List Nat).Nodup ∧ ([2, 0] : List Nat).length < Scenario.c1run.N ∧
    (∃ t arr,
      mapLookup (processChunks ([2, 0].map Scenario.c1run.msg) 104
          (handleFileTransfer Scenario.c1run.sid
            ⟨Scenario.receiverId, [{ name := "x.txt", size := 9, type := "text/plain" }],
              some "t1"⟩ "fresh" 103 Scenario.roomed)).fileTransfers
        Scenario.c1run.tid = some t ∧
      t.chunks = some arr ∧
      t.receivedChunks = ([2, 0] : List Nat).length ∧
      t.receivedChunks = (bufferedIdx arr Scenario.c1run.N).length ∧
      t.receivedChunks ≤ Scenario.c1run.N ∧
      (∀ i, (arrayGet arr i).isSome = true → i < Scenario.c1run.N)) :=
  ⟨by decide, by decide,
    c8_amended_chunk_invariant Scenario.c1run Scenario.roomed
      ⟨Scenario.receiverId, [{ name := "x.txt", size := 9, type := "text/plain" }],
        some "t1"⟩ "fresh" 103 104 [2, 0] Scenario.senderDev Scenario.receiverDev
      (by decide) (by decide) (by decide) (by decide) (by decide) (by decide) (by decide)
      (by decide) (by decide) (by decide) (by decide) (by decide) (by decide) (by decide)
      (by decide) (by unfold ChunkRun.Base64; decide) (by decide) (by decide) (by decide)⟩


theorem listIsPre_append (p t : List Char) : listIsPre p (p ++ t) = true := by
  induction p with
  | nil => rfl
  | cons a as ih => simp [listIsPre, ih]

theorem jsStartsWith_append (p t : String) : jsStartsWith (p ++ t) p = true := by
  unfold jsStartsWith
  rw [String.data_append]
  exact listIsPre_append _ _

theorem listIsPre_map (f : Char → Char) (pat s : List Char) (h : listIsPre pat s = true) :
    listIsPre (pat.map f) (s.map f) = true := by
  induction pat generalizing s with
  | nil => rfl
  | cons a as ih =>
    cases s with
    | nil => simp [listIsPre] at h
    | cons b bs =>
      simp only [listIsPre, Bool.and_eq_true, decide_eq_true_eq] at h
      simp [List.map_cons, listIsPre, h.1, ih bs h.2]

theorem listHasSub_map (f : Char → Char) (pat s : List Char) (h : listHasSub pat s = true) :
    listHasSub (pat.map f) (s.map f) = true := by
  induction s with
  | nil => exact listIsPre_map f pat [] h
  | cons b bs ih =>
    simp only [listHasSub, Bool.or_eq_true] at h
    rcases h with h | h
    · have h1 := listIsPre_map f pat (b :: bs) h
      simp only [List.map_cons] at h1 ⊢
      simp [listHasSub, h1]
    · simp [List.map_cons, listHasSub, ih h]

theorem jsIncludes_lower (ua pat : String) (h : jsIncludes ua pat = true) :
    jsIncludes (strLower ua) (strLower pat) = true :=
  listHasSub_map charLower pat.data ua.data h

theorem generateStableDeviceId_ios {ua : String} (ip lang : String)
    (h : isIOSUserAgent ua = true) :
    generateStableDeviceId ua ip lang =
      "ios-" ++ toBase36 (hashString (ua ++ lang)).natAbs := by
  simp only [generateStableDeviceId, h, if_true]

theorem generateStableDeviceId_other {ua : String} (ip lang : String)
    (h : isIOSUserAgent ua = false) :
    generateStableDeviceId ua ip lang =
      "device-" ++ toBase36 (hashString (ua ++ ip ++ lang)).natAbs := by
  simp only [generateStableDeviceId, h, Bool.false_eq_true, if_false]

/-- C5 (amended): the hasher is a pure function (determinism is the first
conjunct); its iOS classification is the case-insensitive
`isIOSUserAgent`, not the case-sensitive regex: every user agent it
classifies as iOS gets an id independent of the client address and
prefixed `ios-`; every other user agent gets an id hashed from a seed that
includes the address, prefixed `device-`.  The last conjunct recovers the
claim's true half: any UA matching the case-sensitive regex
`iPhone|iPad|iPod` is in the iOS class. -/
theorem c5_amended_hasher :
    (∀ ua ip lang : String,
      generateStableDeviceId ua ip lang = generateStableDeviceId ua ip lang) ∧
    (∀ ua ip ip' lang : String, isIOSUserAgent ua = true →
      generateStableDeviceId ua ip lang = generateStableDeviceId ua ip' lang ∧
      jsStartsWith (generateStableDeviceId ua ip lang) "ios-" = true) ∧
    (∀ ua ip lang : String, isIOSUserAgent ua = false →
      generateStableDeviceId ua ip lang =
        "device-" ++ toBase36 (hashString (ua ++ ip ++ lang)).natAbs ∧
      jsStartsWith (generateStableDeviceId ua ip lang) "device-" = true) ∧
    (∀ ua : String, iosRegexTest ua = true → isIOSUserAgent ua = true) := by
  refine ⟨fun ua ip lang => rfl, ?_, ?_, ?_⟩
  · intro ua ip ip' lang h
    rw [generateStableDeviceId_ios ip lang h, generateStableDeviceId_ios ip' lang h]
    exact ⟨rfl, jsStartsWith_append "ios-" _⟩
  · intro ua ip lang h
    rw [generateStableDeviceId_other ip lang h]
    exact ⟨rfl, jsStartsWith_append "device-" _⟩
  · intro ua h
    unfold iosRegexTest at h
    unfold isIOSUserAgent
    simp only [Bool.or_eq_true] at h ⊢
    rcases h with (h | h) | h
    · left; left
      have h1 := jsIncludes_lower ua "iPhone" h
      simpa [strLower] using h1
    · left; right
      have h1 := jsIncludes_lower ua "iPad" h
      simpa [strLower] using h1
    · right
      have h1 := jsIncludes_lower ua "iPod" h
      simpa [strLower] using h1

/-- C5 witness: an iOS-class user agent whose id ignores the address and
carries the `ios-` tag, and a desktop user agent whose id carries the
`device-` tag. -/
theorem c5_amended_hasher_witness :
    isIOSUserAgent "iPhone OS Safari" = true ∧
    generateStableDeviceId "iPhone OS Safari" "1.2.3.4" "de" =
      generateStableDeviceId "iPhone OS Safari" "5.6.7.8" "de" ∧
    jsStartsWith (generateStableDeviceId "iPhone OS Safari" "1.2.3.4" "de") "ios-" =
      true ∧
    isIOSUserAgent "Mozilla Windows" = false ∧
    jsStartsWith (generateStableDeviceId "Mozilla Windows" "1.2.3.4" "de") "device-" =
      true :=
  ⟨by decide,
   (c5_amended_hasher.2.1 "iPhone OS Safari" "1.2.3.4" "5.6.7.8" "de" (by decide)).1,
   (c5_amended_hasher.2.1 "iPhone OS Safari" "1.2.3.4" "5.6.7.8" "de" (by decide)).2,
   by decide,
   (c5_amended_hasher.2.2.1 "Mozilla Windows" "1.2.3.4" "de" (by decide)).2⟩

theorem onlyEmits_self (s : ServerState) : OnlyEmits s s :=
  ⟨rfl, rfl, rfl, rfl, rfl, rfl, [], by simp⟩

theorem OnlyEmits.trans {s1 s2 s3 : ServerState} (h1 : OnlyEmits s1 s2)
    (h2 : OnlyEmits s2 s3) : OnlyEmits s1 s3 := by
  obtain ⟨a1, b1, c1, d1, e1, f1, tl1, g1⟩ := h1
  obtain ⟨a2, b2, c2, d2, e2, f2, tl2, g2⟩ := h2
  exact ⟨a2.trans a1, b2.trans b1, c2.trans c1, d2.trans d1, e2.trans e1, f2.trans f1,
    tl1 ++ tl2, by rw [g2, g1, List.append_assoc]⟩

theorem emitTo_onlyEmits (s : ServerState) (c : Nat) (f : Frame) :
    OnlyEmits s (emitTo s c f) := by
  unfold emitTo
  split
  · exact ⟨rfl, rfl, rfl, rfl, rfl, rfl, [(c, f)], rfl⟩
  · exact onlyEmits_self s

theorem devEmit_onlyEmits (s : ServerState) (d : Device) (f : Frame) :
    OnlyEmits s (devEmit s d f) := by
  unfold devEmit
  cases d.ws with
  | none => exact onlyEmits_self s
  | some c => exact emitTo_onlyEmits s c f

theorem foldl_onlyEmits {β : Type} (g : ServerState → β → ServerState) (l : List β)
    (hg : ∀ acc b, OnlyEmits acc (g acc b)) :
    ∀ s, OnlyEmits s (l.foldl g s) := by
  induction l with
  | nil => intro s; exact onlyEmits_self s
  | cons b rest ih =>
    intro s
    exact (hg s b).trans (ih (g s b))

theorem broadcastToRoom_onlyEmits (roomId : String) (f : Frame)
    (exclude : Option String) (s : ServerState) :
    OnlyEmits s (broadcastToRoom roomId f exclude s) := by
  unfold broadcastToRoom
  cases mapLookup s.rooms roomId with
  | none => exact onlyEmits_self s
  | some room =>
    apply foldl_onlyEmits
    intro acc did
    by_cases h : some did = exclude
    · simp [h]; exact onlyEmits_self acc
    · simp only [h, if_false]
      cases mapLookup acc.devices did with
      | none => exact onlyEmits_self acc
      | some d =>
        by_cases hon : d.online
        · simp only [hon, if_true]
          exact devEmit_onlyEmits acc d f
        · simp only [hon]
          simp
          exact onlyEmits_self acc

theorem broadcastDeviceList_onlyEmits (roomId : String) (s : ServerState) :
    OnlyEmits s (broadcastDeviceList roomId s) := by
  unfold broadcastDeviceList
  cases mapLookup s.rooms roomId with
  | none => exact onlyEmits_self s
  | some room => exact broadcastToRoom_onlyEmits _ _ _ s

theorem mapLookup_mem {κ α : Type} [DecidableEq κ] {m : List (κ × α)} {k : κ} {v : α}
    (h : mapLookup m k = some v) : (k, v) ∈ m := by
  induction m with
  | nil => cases h
  | cons p rest ih =>
    obtain ⟨k0, v0⟩ := p
    by_cases hk : k0 = k
    · subst hk
      simp only [mapLookup, if_pos rfl] at h
      injection h with h
      subst h
      exact List.mem_cons_self _ _
    · simp only [mapLookup, hk, if_false] at h
      exact List.mem_cons_of_mem _ (ih h)

theorem findRoomEntry_eq {rs : List (String × Room)} {key k : String} {r : Room}
    (hmem : (k, r) ∈ rs) (hname : strLower r.name = key)
    (huniq : ∀ k' r', (k', r') ∈ rs → strLower r'.name = key → k' = k ∧ r' = r) :
    findRoomEntry rs key = some (k, r) := by
  induction rs with
  | nil => cases hmem
  | cons p rest ih =>
    obtain ⟨k0, r0⟩ := p
    by_cases h0 : strLower r0.name = key
    · obtain ⟨hk0, hr0⟩ := huniq k0 r0 (List.mem_cons_self _ _) h0
      subst hk0
      subst hr0
      simp [findRoomEntry, h0]
    · rcases List.mem_cons.mp hmem with he | hm
      · injection he with h1 h2
        subst h2
        exact absurd hname h0
      · simp only [findRoomEntry, h0, if_false]
        exact ih hm (fun k' r' h' hn => huniq k' r' (List.mem_cons_of_mem _ h') hn)

theorem mem_setAdd_self (l : List String) (x : String) : x ∈ setAdd l x := by
  unfold setAdd
  split
  · assumption
  · simp

theorem postBroadcasts_rooms (frId : String) (f : Frame) (ex : Option String)
    (s4 : ServerState) :
    (broadcastToRoom frId f ex (broadcastDeviceList frId s4)).rooms = s4.rooms := by
  obtain ⟨h, _⟩ := (broadcastDeviceList_onlyEmits frId s4).trans
    (broadcastToRoom_onlyEmits frId f ex _)
  exact h

theorem postBroadcasts_devices (frId : String) (f : Frame) (ex : Option String)
    (s4 : ServerState) :
    (broadcastToRoom frId f ex (broadcastDeviceList frId s4)).devices = s4.devices := by
  obtain ⟨_, h, _⟩ := (broadcastDeviceList_onlyEmits frId s4).trans
    (broadcastToRoom_onlyEmits frId f ex _)
  exact h

theorem postBroadcasts_mem (frId : String) (f : Frame) (ex : Option String)
    (s4 : ServerState) (p : Nat × Frame) (h : p ∈ s4.emitted) :
    p ∈ (broadcastToRoom frId f ex (broadcastDeviceList frId s4)).emitted := by
  obtain ⟨_, _, _, _, _, _, tl, he⟩ := (broadcastDeviceList_onlyEmits frId s4).trans
    (broadcastToRoom_onlyEmits frId f ex _)
  rw [he]
  exact List.mem_append_left _ h


theorem mapInsert_keys {κ α : Type} [DecidableEq κ] (m : List (κ × α)) (k : κ) (v : α) :
    (mapInsert m k v).map Prod.fst =
      if k ∈ m.map Prod.fst then m.map Prod.fst else m.map Prod.fst ++ [k] := by
  induction m with
  | nil => simp [mapInsert]
  | cons p rest ih =>
    obtain ⟨k0, v0⟩ := p
    by_cases hk : k0 = k
    · subst hk
      simp [mapInsert]
    · simp only [mapInsert, hk, if_false, List.map_cons, ih]
      by_cases hmem : k ∈ rest.map Prod.fst
      · simp [hmem, Ne.symm hk]
      · simp [hmem, Ne.symm hk]

theorem mapInsert_keys_nodup {κ α : Type} [DecidableEq κ] {m : List (κ × α)} (k : κ) (v : α)
    (h : (m.map Prod.fst).Nodup) : ((mapInsert m k v).map Prod.fst).Nodup := by
  rw [mapInsert_keys]
  by_cases hmem : k ∈ m.map Prod.fst
  · simpa [hmem] using h
  · simp [hmem, List.nodup_append, h]

theorem mapErase_keys_sublist {κ α : Type} [DecidableEq κ] (m : List (κ × α)) (k : κ) :
    List.Sublist ((mapErase m k).map Prod.fst) (m.map Prod.fst) := by
  induction m with
  | nil => simp [mapErase]
  | cons p rest ih =>
    obtain ⟨k0, v0⟩ := p
    by_cases hk : k0 = k
    · subst hk
      simp only [mapErase, if_pos rfl, List.map_cons]
      exact List.sublist_cons_of_sublist _ (List.Sublist.refl _)
    · simp only [mapErase, hk, if_false, List.map_cons]
      exact List.Sublist.cons₂ _ ih

theorem mapErase_keys_nodup {κ α : Type} [DecidableEq κ] {m : List (κ × α)} (k : κ)
    (h : (m.map Prod.fst).Nodup) : ((mapErase m k).map Prod.fst).Nodup :=
  (mapErase_keys_sublist m k).nodup h

theorem mapLookup_eq_none_of_not_mem_keys {κ α : Type} [DecidableEq κ]
    {m : List (κ × α)} {k : κ} (h : k ∉ m.map Prod.fst) : mapLookup m k = none := by
  induction m with
  | nil => rfl
  | cons p rest ih =>
    obtain ⟨k0, v0⟩ := p
    simp only [List.map_cons, List.mem_cons, not_or] at h
    simp only [mapLookup, Ne.symm h.1, if_false]
    exact ih h.2

theorem mapLookup_erase_self {κ α : Type} [DecidableEq κ] (m : List (κ × α)) (k : κ)
    (h : (m.map Prod.fst).Nodup) : mapLookup (mapErase m k) k = none := by
  induction m with
  | nil => rfl
  | cons p rest ih =>
    obtain ⟨k0, v0⟩ := p
    simp only [List.map_cons, List.nodup_cons] at h
    by_cases hk : k0 = k
    · subst hk
      simp only [mapErase, if_pos rfl]
      exact mapLookup_eq_none_of_not_mem_keys h.1
    · simp only [mapErase, hk, if_false, mapLookup, if_neg hk]
      exact ih h.2

theorem mapLookup_of_mem_keys_nodup {κ α : Type} [DecidableEq κ] {m : List (κ × α)}
    {k : κ} {v : α} (hmem : (k, v) ∈ m) (h : (m.map Prod.fst).Nodup) :
    mapLookup m k = some v := by
  induction m with
  | nil => cases hmem
  | cons p rest ih =>
    obtain ⟨k0, v0⟩ := p
    simp only [List.map_cons, List.nodup_cons] at h
    rcases List.mem_cons.mp hmem with he | hm
    · injection he with h1 h2
      subst h1
      subst h2
      simp [mapLookup]
    · by_cases hk : k0 = k
      · subst hk
        exact absurd (List.mem_map.mpr ⟨(k0, v), hm, rfl⟩) h.1
      · simp only [mapLookup, hk, if_false]
        exact ih hm h.2

theorem findRoomEntry_mem {rs : List (String × Room)} {key k : String} {r : Room}
    (h : findRoomEntry rs key = some (k, r)) : (k, r) ∈ rs := by
  induction rs with
  | nil => cases h
  | cons p rest ih =>
    obtain ⟨k0, r0⟩ := p
    by_cases h0 : strLower r0.name = key
    · simp [findRoomEntry, h0] at h
      rcases h with ⟨h1, h2⟩
      subst h1
      subst h2
      exact List.mem_cons_self _ _
    · simp only [findRoomEntry, h0, if_false] at h
      exact List.mem_cons_of_mem _ (ih h)

theorem goodState_of_eq {s s' : ServerState} (hr : s'.rooms = s.rooms)
    (hd : s'.devices = s.devices) (h : GoodState s) : GoodState s' := by
  obtain ⟨wk, nd, inv⟩ := h
  refine ⟨?_, ?_, ?_⟩
  · intro k r hlk
    exact wk k r (by rwa [hr] at hlk)
  · unfold RoomKeysNodup at nd ⊢
    rwa [hr]
  · intro k r hlk did hmem
    obtain ⟨dev, h1, h2⟩ := inv k r (by rwa [hr] at hlk) did hmem
    exact ⟨dev, by rwa [hd], h2⟩

theorem notMember_of_eq {s s' : ServerState} (hr : s'.rooms = s.rooms) {did : String}
    (h : NotMember s did) : NotMember s' did := by
  intro k r hlk
  exact h k r (by rwa [hr] at hlk)

theorem onlyEmits_goodState {s s' : ServerState} (h : OnlyEmits s s') (hg : GoodState s) :
    GoodState s' :=
  goodState_of_eq h.1 h.2.1 hg

theorem notMember_of_roomId_none {s : ServerState} {did : String} {dev : Device}
    (hg : GoodState s) (hdev : mapLookup s.devices did = some dev)
    (hnone : dev.roomId = none) : NotMember s did := by
  intro k r hlk hmem
  obtain ⟨dev', h1, h2⟩ := hg.2.2 k r hlk did hmem
  rw [hdev] at h1
  injection h1 with h1
  subst h1
  rw [hnone] at h2
  cases h2

theorem notMember_of_unregistered {s : ServerState} {did : String} (hg : GoodState s)
    (hdev : mapLookup s.devices did = none) : NotMember s did := by
  intro k r hlk hmem
  obtain ⟨dev', h1, _⟩ := hg.2.2 k r hlk did hmem
  rw [hdev] at h1
  cases h1

theorem goodState_update_keep (s : ServerState) (did : String) (dev dev1 : Device)
    (hdev : mapLookup s.devices did = some dev) (hrid : dev1.roomId = dev.roomId)
    (hg : GoodState s) :
    GoodState { s with devices := mapInsert s.devices did dev1 } := by
  obtain ⟨wk, nd, inv⟩ := hg
  refine ⟨wk, nd, ?_⟩
  intro k r hlk m hmem
  obtain ⟨dm, h1, h2⟩ := inv k r hlk m hmem
  by_cases hm : m = did
  · subst hm
    refine ⟨dev1, mapLookup_insert_self _ _ _, ?_⟩
    rw [hrid]
    rw [hdev] at h1
    injection h1 with h1
    subst h1
    exact h2
  · exact ⟨dm, by rwa [mapLookup_insert_ne _ _ _ _ (fun hh => hm hh.symm)], h2⟩

theorem goodState_update_nonmember (s : ServerState) (did : String) (dev1 : Device)
    (hnm : NotMember s did) (hg : GoodState s) :
    GoodState { s with devices := mapInsert s.devices did dev1 } := by
  obtain ⟨wk, nd, inv⟩ := hg
  refine ⟨wk, nd, ?_⟩
  intro k r hlk m hmem
  by_cases hm : m = did
  · subst hm
    exact absurd hmem (hnm k r hlk)
  · obtain ⟨dm, h1, h2⟩ := inv k r hlk m hmem
    exact ⟨dm, by rwa [mapLookup_insert_ne _ _ _ _ (fun hh => hm hh.symm)], h2⟩

theorem mem_of_mem_setDel {l : List String} {x y : String} (h : x ∈ setDel l y) :
    x ∈ l := by
  unfold setDel at h
  exact List.mem_of_mem_filter h

theorem not_mem_setDel_self (l : List String) (x : String) : x ∉ setDel l x := by
  unfold setDel
  intro h
  have := List.of_mem_filter h
  simp at this

theorem leave_tail (s1 : ServerState) (did : String) (dev : Device) (f : Frame)
    (hg1 : GoodState s1) (hnm1 : NotMember s1 did) :
    GoodState (devEmit { s1 with
      devices := mapInsert s1.devices did { dev with roomId := none } } dev f) ∧
    NotMember (devEmit { s1 with
      devices := mapInsert s1.devices did { dev with roomId := none } } dev f) did ∧
    mapLookup (devEmit { s1 with
      devices := mapInsert s1.devices did { dev with roomId := none } } dev f).devices did
      = some { dev with roomId := none } ∧
    (∀ x, x ≠ did → mapLookup (devEmit { s1 with
      devices := mapInsert s1.devices did { dev with roomId := none } } dev f).devices x
      = mapLookup s1.devices x) ∧
    (∀ k, mapLookup (devEmit { s1 with
      devices := mapInsert s1.devices did { dev with roomId := none } } dev f).rooms k
      = mapLookup s1.rooms k) := by
  have hE := devEmit_onlyEmits { s1 with
    devices := mapInsert s1.devices did { dev with roomId := none } } dev f
  refine ⟨onlyEmits_goodState hE (goodState_update_nonmember s1 did _ hnm1 hg1),
    notMember_of_eq hE.1 (notMember_of_eq rfl hnm1), ?_, ?_, ?_⟩
  · rw [hE.2.1]
    exact mapLookup_insert_self _ _ _
  · intro x hx
    rw [hE.2.1]
    exact mapLookup_insert_ne _ _ _ _ (fun hh => hx hh.symm)
  · intro k
    rw [hE.1]


theorem leave_spec (s : ServerState) (did : String) (hg : GoodState s) :
    GoodState (handleLeaveRoom did s) ∧
    NotMember (handleLeaveRoom did s) did ∧
    (∀ dev, mapLookup s.devices did = some dev →
      mapLookup (handleLeaveRoom did s).devices did = some { dev with roomId := none }) ∧
    (∀ x, x ≠ did → mapLookup (handleLeaveRoom did s).devices x = mapLookup s.devices x) ∧
    (∀ k, mapLookup s.rooms k = none →
      mapLookup (handleLeaveRoom did s).rooms k = none) := by
  cases hdev : mapLookup s.devices did with
  | none =>
    have hres : handleLeaveRoom did s = s := by
      simp only [handleLeaveRoom, hdev]
    rw [hres]
    refine ⟨hg, notMember_of_unregistered hg hdev, ?_, fun x _ => rfl, fun k h => h⟩
    intro dev h
    cases h
  | some dev =>
    cases hrid : dev.roomId with
    | none =>
      have hres : handleLeaveRoom did s = s := by
        simp only [handleLeaveRoom, hdev, hrid]
      rw [hres]
      have hdevEta : ({ dev with roomId := none } : Device) = dev := by
        cases dev
        simp only at hrid
        simp [hrid]
      refine ⟨hg, notMember_of_roomId_none hg hdev hrid, ?_, fun x _ => rfl, fun k h => h⟩
      intro dev' h'
      injection h' with h'
      subst h'
      rw [hdevEta]
      exact hdev
    | some rid =>
      have honly : ∀ k' r', mapLookup s.rooms k' = some r' → did ∈ r'.devices →
          k' = rid := by
        intro k' r' hlk hmem
        obtain ⟨dev', h1, h2⟩ := hg.2.2 k' r' hlk did hmem
        rw [hdev] at h1
        injection h1 with h1
        subst h1
        rw [hrid] at h2
        injection h2 with h2
        exact h2.symm
      cases hro : mapLookup s.rooms rid with
      | none =>
        have hnm1 : NotMember s did := by
          intro k' r' hlk hmem
          have hk := honly k' r' hlk hmem
          subst hk
          rw [hro] at hlk
          cases hlk
        have hres : handleLeaveRoom did s = devEmit { s with devices := mapInsert s.devices did { dev with roomId := none } } dev .roomLeft := by
          simp only [handleLeaveRoom, hdev, hrid, hro]
        rw [hres]
        have h := leave_tail s did dev .roomLeft hg hnm1
        refine ⟨h.1, h.2.1, ?_, h.2.2.2.1, fun k hk => by rw [h.2.2.2.2 k]; exact hk⟩
        intro dev' h'
        injection h' with h'
        subst h'
        exact h.2.2.1
      | some room =>
        by_cases hemp : (setDel room.devices did).isEmpty = true
        · -- the departing device was the last member: the room is deleted
          have hrooms1 : ({ s with rooms := mapErase s.rooms rid } : ServerState).rooms = mapErase s.rooms rid := rfl
          have hg1 : GoodState { s with rooms := mapErase s.rooms rid } := by
            obtain ⟨wk, nd, inv⟩ := hg
            refine ⟨?_, mapErase_keys_nodup _ nd, ?_⟩
            · intro k r hlk
              rw [hrooms1] at hlk
              by_cases hk : k = rid
              · subst hk
                rw [mapLookup_erase_self _ _ nd] at hlk
                cases hlk
              · exact wk k r (by rwa [mapLookup_erase_ne _ _ _ (fun hh => hk hh.symm)] at hlk)
            · intro k r hlk m hmem
              rw [hrooms1] at hlk
              by_cases hk : k = rid
              · subst hk
                rw [mapLookup_erase_self _ _ nd] at hlk
                cases hlk
              · exact inv k r (by rwa [mapLookup_erase_ne _ _ _ (fun hh => hk hh.symm)] at hlk) m hmem
          have hnm1 : NotMember { s with rooms := mapErase s.rooms rid } did := by
            intro k' r' hlk hmem
            rw [hrooms1] at hlk
            by_cases hk : k' = rid
            · subst hk
              rw [mapLookup_erase_self _ _ hg.2.1] at hlk
              cases hlk
            · have hlk' : mapLookup s.rooms k' = some r' := by
                rwa [mapLookup_erase_ne _ _ _ (fun hh => hk hh.symm)] at hlk
              exact hk (honly k' r' hlk' hmem)
          have hres : handleLeaveRoom did s = devEmit { ({ s with rooms := mapErase s.rooms rid } : ServerState) with devices := mapInsert s.devices did { dev with roomId := none } } dev .roomLeft := by
            simp only [handleLeaveRoom, hdev, hrid, hro, hemp, if_true]
          rw [hres]
          have h := leave_tail { s with rooms := mapErase s.rooms rid } did dev .roomLeft hg1 hnm1
          refine ⟨h.1, h.2.1, ?_, h.2.2.2.1, ?_⟩
          · intro dev' h'
            injection h' with h'
            subst h'
            exact h.2.2.1
          · intro k hk
            rw [h.2.2.2.2 k, hrooms1]
            have hkne : rid ≠ k := by
              intro hh
              rw [hh] at hro
              rw [hro] at hk
              cases hk
            rw [mapLookup_erase_ne _ _ _ hkne]
            exact hk
        · -- other members remain: the shrunken room is written back, broadcast sent
          have hroomsA : ({ s with rooms := mapInsert s.rooms rid { room with devices := setDel room.devices did } } : ServerState).rooms = mapInsert s.rooms rid { room with devices := setDel room.devices did } := rfl
          have hgA : GoodState { s with rooms := mapInsert s.rooms rid { room with devices := setDel room.devices did } } := by
            obtain ⟨wk, nd, inv⟩ := hg
            refine ⟨?_, mapInsert_keys_nodup _ _ nd, ?_⟩
            · intro k r hlk
              rw [hroomsA, mapLookup_insert] at hlk
              by_cases hk : rid = k
              · rw [if_pos hk] at hlk
                injection hlk with hlk
                subst hlk
                exact hk ▸ wk rid room hro
              · rw [if_neg hk] at hlk
                exact wk k r hlk
            · intro k r hlk m hmem
              rw [hroomsA, mapLookup_insert] at hlk
              by_cases hk : rid = k
              · subst hk
                rw [if_pos rfl] at hlk
                injection hlk with hlk
                subst hlk
                exact inv rid room hro m (mem_of_mem_setDel hmem)
              · rw [if_neg hk] at hlk
                exact inv k r hlk m hmem
          have hnmA : NotMember { s with rooms := mapInsert s.rooms rid { room with devices := setDel room.devices did } } did := by
            intro k' r' hlk hmem
            rw [hroomsA, mapLookup_insert] at hlk
            by_cases hk : rid = k'
            · subst hk
              rw [if_pos rfl] at hlk
              injection hlk with hlk
              subst hlk
              exact not_mem_setDel_self _ _ hmem
            · rw [if_neg hk] at hlk
              exact hk (honly k' r' hlk hmem).symm
          have hB := broadcastToRoom_onlyEmits rid (.deviceLeftF did (jsOr dev.customName dev.name) ((setDel room.devices did).length : Int) none) (some did) { s with rooms := mapInsert s.rooms rid { room with devices := setDel room.devices did } }
          have hg1 := onlyEmits_goodState hB hgA
          have hnm1 := notMember_of_eq hB.1 hnmA
          have hres : handleLeaveRoom did s = devEmit { (broadcastToRoom rid (.deviceLeftF did (jsOr dev.customName dev.name) ((setDel room.devices did).length : Int) none) (some did) { s with rooms := mapInsert s.rooms rid { room with devices := setDel room.devices did } }) with devices := mapInsert (broadcastToRoom rid (.deviceLeftF did (jsOr dev.customName dev.name) ((setDel room.devices did).length : Int) none) (some did) { s with rooms := mapInsert s.rooms rid { room with devices := setDel room.devices did } }).devices did { dev with roomId := none } } dev .roomLeft := by
            simp only [handleLeaveRoom, hdev, hrid, hro, hemp, Bool.false_eq_true, if_false]
          rw [hres]
          have h := leave_tail (broadcastToRoom rid (.deviceLeftF did (jsOr dev.customName dev.name) ((setDel room.devices did).length : Int) none) (some did) { s with rooms := mapInsert s.rooms rid { room with devices := setDel room.devices did } }) did dev .roomLeft hg1 hnm1
          refine ⟨h.1, h.2.1, ?_, ?_, ?_⟩
          · intro dev' h'
            injection h' with h'
            subst h'
            exact h.2.2.1
          · intro x hx
            rw [h.2.2.2.1 x hx, hB.2.1]
          · intro k hk
            rw [h.2.2.2.2 k, hB.1, hroomsA, mapLookup_insert]
            have hkne : rid ≠ k := by
              intro hh
              rw [hh] at hro
              rw [hro] at hk
              cases hk
            rw [if_neg hkne]
            exact hk

theorem mem_of_mem_setAdd {l : List String} {x y : String} (h : x ∈ setAdd l y) :
    x ∈ l ∨ x = y := by
  unfold setAdd at h
  by_cases hy : y ∈ l
  · rw [if_pos hy] at h
    exact Or.inl h
  · rw [if_neg hy] at h
    rcases List.mem_append.1 h with h' | h'
    · exact Or.inl h'
    · exact Or.inr (List.mem_singleton.1 h')

theorem goodState_set_channels (s : ServerState) (m : List (Nat × Bool))
    (hg : GoodState s) : GoodState { s with channels := m } :=
  goodState_of_eq rfl rfl hg

theorem goodState_set_connections (s : ServerState) (m : List (Nat × String))
    (hg : GoodState s) : GoodState { s with connections := m } :=
  goodState_of_eq rfl rfl hg

theorem goodState_set_fileTransfers (s : ServerState) (m : List (String × Transfer))
    (hg : GoodState s) : GoodState { s with fileTransfers := m } :=
  goodState_of_eq rfl rfl hg

theorem goodState_updateMemoryUsage (delta : Int) (s : ServerState)
    (hg : GoodState s) : GoodState (updateMemoryUsage delta s).1 :=
  goodState_of_eq rfl rfl hg

theorem goodState_emitTo (s : ServerState) (c : Nat) (f : Frame) (hg : GoodState s) :
    GoodState (emitTo s c f) :=
  onlyEmits_goodState (emitTo_onlyEmits s c f) hg

theorem goodState_devEmit (s : ServerState) (d : Device) (f : Frame) (hg : GoodState s) :
    GoodState (devEmit s d f) :=
  onlyEmits_goodState (devEmit_onlyEmits s d f) hg

theorem goodState_broadcastToRoom (roomId : String) (f : Frame) (exclude : Option String)
    (s : ServerState) (hg : GoodState s) : GoodState (broadcastToRoom roomId f exclude s) :=
  onlyEmits_goodState (broadcastToRoom_onlyEmits roomId f exclude s) hg

theorem goodState_broadcastDeviceList (roomId : String) (s : ServerState)
    (hg : GoodState s) : GoodState (broadcastDeviceList roomId s) :=
  onlyEmits_goodState (broadcastDeviceList_onlyEmits roomId s) hg

theorem goodState_erase_device (s : ServerState) (did : String)
    (hnm : NotMember s did) (hg : GoodState s) :
    GoodState { s with devices := mapErase s.devices did } := by
  obtain ⟨wk, nd, inv⟩ := hg
  refine ⟨wk, nd, ?_⟩
  intro k r hlk m hmem
  have hm : m ≠ did := fun hh => (hnm k r hlk) (hh ▸ hmem)
  obtain ⟨dm, h1, h2⟩ := inv k r hlk m hmem
  exact ⟨dm, by rwa [mapLookup_erase_ne _ _ _ (fun hh => hm hh.symm)], h2⟩

theorem handleFileTransfer_goodState (sid : String) (msg : FileTransferMsg)
    (fid : String) (now : Nat) (s : ServerState) (hg : GoodState s) :
    GoodState (handleFileTransfer sid msg fid now s) := by
  simp only [handleFileTransfer]
  split
  · exact hg
  · split
    · exact goodState_devEmit _ _ _ hg
    · split
      · exact goodState_devEmit _ _ _ hg
      · split
        · exact hg
        · split
          · exact goodState_devEmit _ _ _ (goodState_devEmit _ _ _
              (goodState_set_fileTransfers _ _ hg))
          · exact goodState_devEmit _ _ _ (goodState_set_fileTransfers _ _ hg)

theorem devEmit_rooms (s : ServerState) (d : Device) (f : Frame) :
    (devEmit s d f).rooms = s.rooms := (devEmit_onlyEmits s d f).1

theorem devEmit_devices (s : ServerState) (d : Device) (f : Frame) :
    (devEmit s d f).devices = s.devices := (devEmit_onlyEmits s d f).2.1

theorem emitTo_rooms (s : ServerState) (c : Nat) (f : Frame) :
    (emitTo s c f).rooms = s.rooms := (emitTo_onlyEmits s c f).1

theorem emitTo_devices (s : ServerState) (c : Nat) (f : Frame) :
    (emitTo s c f).devices = s.devices := (emitTo_onlyEmits s c f).2.1

theorem handleFileChunk_rooms (msg : FileChunkMsg) (now : Nat) (s : ServerState) :
    (handleFileChunk msg now s).rooms = s.rooms := by
  simp only [handleFileChunk]
  repeat' split
  all_goals simp [devEmit_rooms, updateMemoryUsage]

theorem handleFileChunk_devices (msg : FileChunkMsg) (now : Nat) (s : ServerState) :
    (handleFileChunk msg now s).devices = s.devices := by
  simp only [handleFileChunk]
  repeat' split
  all_goals simp [devEmit_devices, updateMemoryUsage]

theorem handleFileChunk_goodState (msg : FileChunkMsg) (now : Nat) (s : ServerState)
    (hg : GoodState s) : GoodState (handleFileChunk msg now s) :=
  goodState_of_eq (handleFileChunk_rooms msg now s) (handleFileChunk_devices msg now s) hg

theorem handleFileCancel_goodState (tid : String) (s : ServerState) (hg : GoodState s) :
    GoodState (handleFileCancel tid s) := by
  simp only [handleFileCancel]
  repeat' split
  all_goals exact hg

theorem handleFileComplete_goodState (tid : String) (s : ServerState) (hg : GoodState s) :
    GoodState (handleFileComplete tid s) := by
  simp only [handleFileComplete]
  repeat' split
  all_goals exact hg

theorem handleTransferCompleteMsg_goodState (tid : String) (s : ServerState)
    (hg : GoodState s) : GoodState (handleTransferCompleteMsg tid s) := by
  simp only [handleTransferCompleteMsg]
  repeat' split
  all_goals exact hg

theorem handleRequestMissingChunks_goodState (did : String) (msg : ReqMissingMsg)
    (s : ServerState) (hg : GoodState s) :
    GoodState (handleRequestMissingChunks did msg s) := by
  simp only [handleRequestMissingChunks]
  repeat' split
  all_goals try exact hg
  all_goals
    refine onlyEmits_goodState (foldl_onlyEmits _ _ (fun acc i => ?_) s) hg
  all_goals repeat' split
  all_goals first
    | exact onlyEmits_self _
    | exact emitTo_onlyEmits _ _ _

theorem sweepGo_goodState (now : Nat) :
    ∀ (l : List (String × Transfer)) (s : ServerState), GoodState s →
      GoodState (sweepGo now l s) := by
  intro l
  induction l with
  | nil => intro s hg; exact hg
  | cons p rest ih =>
    intro s hg
    obtain ⟨tid, t0⟩ := p
    simp only [sweepGo]
    split
    · exact ih s hg
    · split
      · split
        · exact goodState_updateMemoryUsage _ _ hg
        · exact ih _ (goodState_set_fileTransfers _ _ hg)
      · exact ih s hg

theorem janitorTransferSweep_goodState (now : Nat) (s : ServerState) (hg : GoodState s) :
    GoodState (janitorTransferSweep now s) :=
  sweepGo_goodState now s.fileTransfers s hg

theorem goodState_ite_emitTo (c : Prop) [Decidable c] (X : ServerState) (w : Nat)
    (f : Frame) (hg : GoodState X) : GoodState (if c then emitTo X w f else X) := by
  split
  · exact goodState_emitTo _ _ _ hg
  · exact hg

theorem handleDeviceInfo_goodState (did : String) (msg : DeviceInfoMsg) (now : Nat)
    (s : ServerState) (hg : GoodState s) : GoodState (handleDeviceInfo did msg now s) := by
  simp only [handleDeviceInfo]
  split
  · exact hg
  next dev hdev =>
    split
    · exact goodState_broadcastDeviceList _ _
        (goodState_update_keep s did dev _ hdev rfl hg)
    · exact goodState_update_keep s did dev _ hdev rfl hg

theorem handleUpdateDeviceName_goodState (did newName : String) (now : Nat)
    (s : ServerState) (hg : GoodState s) :
    GoodState (handleUpdateDeviceName did newName now s) := by
  simp only [handleUpdateDeviceName]
  split
  · exact hg
  next dev hdev =>
    split
    · refine goodState_devEmit _ _ _ ?_
      split
      · exact goodState_broadcastDeviceList _ _
          (goodState_update_keep s did dev _ hdev rfl hg)
      · exact goodState_update_keep s did dev _ hdev rfl hg
    · split
      · exact goodState_broadcastDeviceList _ _
          (goodState_update_keep s did dev _ hdev rfl hg)
      · exact goodState_update_keep s did dev _ hdev rfl hg

theorem handleTogglePinDevice_goodState (did tid : String) (s : ServerState)
    (hg : GoodState s) : GoodState (handleTogglePinDevice did tid s) := by
  simp only [handleTogglePinDevice]
  split
  · exact hg
  next dev hdev =>
    split
    · exact hg
    next target htarget =>
      split
      · split
        · exact goodState_broadcastDeviceList _ _
            (goodState_update_keep s tid target _ htarget rfl hg)
        · exact goodState_update_keep s tid target _ htarget rfl hg
      · exact hg

theorem handleConnection_goodState (ws : Nat) (ua ip lang : String) (now : Nat)
    (s : ServerState) (hg : GoodState s) :
    GoodState (handleConnection ws ua ip lang now s) := by
  simp only [handleConnection]
  refine goodState_ite_emitTo _ _ _ _ (goodState_set_connections _ _ ?_)
  split
  next d hd =>
    exact goodState_update_keep _ _ d _ hd rfl
      (goodState_ite_emitTo _ _ _ _ (goodState_set_channels _ _ hg))
  next hd =>
    exact goodState_update_nonmember _ _ _
      (notMember_of_unregistered
        (goodState_ite_emitTo _ _ _ _ (goodState_set_channels _ _ hg)) hd)
      (goodState_ite_emitTo _ _ _ _ (goodState_set_channels _ _ hg))

theorem handleClose_goodState (ws : Nat) (did : String) (now : Nat) (s : ServerState)
    (hg : GoodState s) : GoodState (handleClose ws did now s) := by
  simp only [handleClose]
  refine goodState_set_connections _ _ ?_
  split
  · exact goodState_set_channels _ _ hg
  next dev hdev =>
    split
    · split
      · exact goodState_broadcastDeviceList _ _ (goodState_broadcastToRoom _ _ _ _
          (goodState_update_keep _ _ dev _ hdev rfl (goodState_set_channels _ _ hg)))
      · exact goodState_update_keep _ _ dev _ hdev rfl (goodState_set_channels _ _ hg)
    · exact goodState_update_keep _ _ dev _ hdev rfl (goodState_set_channels _ _ hg)

theorem member_only_roomId (s : ServerState) (did : String) (dev : Device) (rid : String)
    (hg : GoodState s) (hdev : mapLookup s.devices did = some dev)
    (hrid : dev.roomId = some rid) :
    ∀ k' r', mapLookup s.rooms k' = some r' → did ∈ r'.devices → k' = rid := by
  intro k' r' hlk hmem
  obtain ⟨dev', h1, h2⟩ := hg.2.2 k' r' hlk did hmem
  rw [hdev] at h1
  injection h1 with h1
  subst h1
  rw [hrid] at h2
  injection h2 with h2
  exact h2.symm

theorem goodState_erase_room (s : ServerState) (rid : String) (hg : GoodState s) :
    GoodState { s with rooms := mapErase s.rooms rid } := by
  obtain ⟨wk, nd, inv⟩ := hg
  have hpr : ({ s with rooms := mapErase s.rooms rid } : ServerState).rooms =
      mapErase s.rooms rid := rfl
  refine ⟨?_, mapErase_keys_nodup _ nd, ?_⟩
  · intro k r hlk
    rw [hpr] at hlk
    by_cases hk : k = rid
    · subst hk
      rw [mapLookup_erase_self _ _ nd] at hlk
      cases hlk
    · exact wk k r (by rwa [mapLookup_erase_ne _ _ _ (fun hh => hk hh.symm)] at hlk)
  · intro k r hlk m hmem
    rw [hpr] at hlk
    by_cases hk : k = rid
    · subst hk
      rw [mapLookup_erase_self _ _ nd] at hlk
      cases hlk
    · exact inv k r (by rwa [mapLookup_erase_ne _ _ _ (fun hh => hk hh.symm)] at hlk)
        m hmem

theorem goodState_shrink_room (s : ServerState) (rid : String) (room : Room)
    (did : String) (hro : mapLookup s.rooms rid = some room) (hg : GoodState s) :
    GoodState { s with rooms := mapInsert s.rooms rid { room with devices := setDel room.devices did } } := by
  obtain ⟨wk, nd, inv⟩ := hg
  have hpr : ({ s with rooms := mapInsert s.rooms rid { room with devices := setDel room.devices did } } : ServerState).rooms = mapInsert s.rooms rid { room with devices := setDel room.devices did } := rfl
  refine ⟨?_, mapInsert_keys_nodup _ _ nd, ?_⟩
  · intro k r hlk
    rw [hpr, mapLookup_insert] at hlk
    by_cases hk : rid = k
    · rw [if_pos hk] at hlk
      injection hlk with hlk
      subst hlk
      exact hk ▸ wk rid room hro
    · rw [if_neg hk] at hlk
      exact wk k r hlk
  · intro k r hlk m hmem
    rw [hpr, mapLookup_insert] at hlk
    by_cases hk : rid = k
    · subst hk
      rw [if_pos rfl] at hlk
      injection hlk with hlk
      subst hlk
      exact inv rid room hro m (mem_of_mem_setDel hmem)
    · rw [if_neg hk] at hlk
      exact inv k r hlk m hmem

theorem notMember_erase_room (s : ServerState) (did rid : String)
    (nd : RoomKeysNodup s)
    (honly : ∀ k' r', mapLookup s.rooms k' = some r' → did ∈ r'.devices → k' = rid) :
    NotMember { s with rooms := mapErase s.rooms rid } did := by
  intro k' r' hlk hmem
  have hpr : ({ s with rooms := mapErase s.rooms rid } : ServerState).rooms =
      mapErase s.rooms rid := rfl
  rw [hpr] at hlk
  by_cases hk : k' = rid
  · subst hk
    rw [mapLookup_erase_self _ _ nd] at hlk
    cases hlk
  · have hlk' : mapLookup s.rooms k' = some r' := by
      rwa [mapLookup_erase_ne _ _ _ (fun hh => hk hh.symm)] at hlk
    exact hk (honly k' r' hlk' hmem)

theorem notMember_shrink_room (s : ServerState) (did rid : String) (room : Room)
    (honly : ∀ k' r', mapLookup s.rooms k' = some r' → did ∈ r'.devices → k' = rid) :
    NotMember { s with rooms := mapInsert s.rooms rid { room with devices := setDel room.devices did } } did := by
  intro k' r' hlk hmem
  have hpr : ({ s with rooms := mapInsert s.rooms rid { room with devices := setDel room.devices did } } : ServerState).rooms = mapInsert s.rooms rid { room with devices := setDel room.devices did } := rfl
  rw [hpr, mapLookup_insert] at hlk
  by_cases hk : rid = k'
  · subst hk
    rw [if_pos rfl] at hlk
    injection hlk with hlk
    subst hlk
    exact not_mem_setDel_self _ _ hmem
  · rw [if_neg hk] at hlk
    exact hk (honly k' r' hlk hmem).symm

theorem notMember_no_room (s : ServerState) (did rid : String)
    (hro : mapLookup s.rooms rid = none)
    (honly : ∀ k' r', mapLookup s.rooms k' = some r' → did ∈ r'.devices → k' = rid) :
    NotMember s did := by
  intro k' r' hlk hmem
  have hk := honly k' r' hlk hmem
  subst hk
  rw [hro] at hlk
  cases hlk

theorem goodState_room_insert (s1 : ServerState) (did k : String) (r1 : Room)
    (dev2 : Device) (hg1 : GoodState s1) (hnm1 : NotMember s1 did)
    (hid : r1.id = k)
    (hmem : ∀ m, m ∈ r1.devices → m = did ∨
      ∃ r0, mapLookup s1.rooms k = some r0 ∧ m ∈ r0.devices)
    (hdev2 : dev2.roomId = some k) :
    GoodState { s1 with rooms := mapInsert s1.rooms k r1, devices := mapInsert s1.devices did dev2 } := by
  obtain ⟨wk, nd, inv⟩ := hg1
  have hpr : ({ s1 with rooms := mapInsert s1.rooms k r1, devices := mapInsert s1.devices did dev2 } : ServerState).rooms = mapInsert s1.rooms k r1 := rfl
  refine ⟨?_, mapInsert_keys_nodup _ _ nd, ?_⟩
  · intro k' r' hlk
    rw [hpr, mapLookup_insert] at hlk
    by_cases hk : k = k'
    · rw [if_pos hk] at hlk
      injection hlk with hlk
      subst hlk
      rw [hid]
      exact hk
    · rw [if_neg hk] at hlk
      exact wk k' r' hlk
  · intro k' r' hlk m hmem'
    rw [hpr, mapLookup_insert] at hlk
    by_cases hk : k = k'
    · subst hk
      rw [if_pos rfl] at hlk
      injection hlk with hlk
      subst hlk
      rcases hmem m hmem' with hm | ⟨r0, hr0, hm0⟩
      · subst hm
        exact ⟨dev2, mapLookup_insert_self _ _ _, hdev2⟩
      · have hmne : m ≠ did := fun hh => (hnm1 k r0 hr0) (hh ▸ hm0)
        obtain ⟨dm, h1, h2⟩ := inv k r0 hr0 m hm0
        exact ⟨dm, by rwa [mapLookup_insert_ne _ _ _ _ (fun hh => hmne hh.symm)], h2⟩
    · rw [if_neg hk] at hlk
      have hmne : m ≠ did := fun hh => (hnm1 k' r' hlk) (hh ▸ hmem')
      obtain ⟨dm, h1, h2⟩ := inv k' r' hlk m hmem'
      exact ⟨dm, by rwa [mapLookup_insert_ne _ _ _ _ (fun hh => hmne hh.symm)], h2⟩

theorem handleCreateRoom_goodState (did : String) (msg : RoomMsg) (fresh : String)
    (now : Nat) (s : ServerState) (hg : GoodState s) :
    GoodState (handleCreateRoom did msg fresh now s) := by
  simp only [handleCreateRoom]
  split
  · exact hg
  next dev hdev =>
    split
    · exact goodState_devEmit _ _ _ hg
    · split
      · exact goodState_devEmit _ _ _ hg
      · have hg1 : GoodState (match dev.roomId with
            | some _ => handleLeaveRoom did s
            | none => s) := by
          split
          · exact (leave_spec s did hg).1
          · exact hg
        have hnm1 : NotMember (match dev.roomId with
            | some _ => handleLeaveRoom did s
            | none => s) did := by
          split
          · exact (leave_spec s did hg).2.1
          next hdr => exact notMember_of_roomId_none hg hdev hdr
        split
        · exact goodState_room_insert _ did fresh _ _ hg1 hnm1 rfl
            (fun m hm => Or.inl (List.mem_singleton.1 hm)) rfl
        · exact goodState_broadcastDeviceList _ _ (goodState_emitTo _ _ _
            (goodState_room_insert _ did fresh _ _ hg1 hnm1 rfl
              (fun m hm => Or.inl (List.mem_singleton.1 hm)) rfl))

theorem handleJoinRoom_goodState (did : String) (msg : RoomMsg) (s : ServerState)
    (hg : GoodState s) : GoodState (handleJoinRoom did msg s) := by
  simp only [handleJoinRoom]
  split
  · exact hg
  next dev hdev =>
    split
    · exact goodState_devEmit _ _ _ hg
    · split
      · exact goodState_devEmit _ _ _ hg
      next k fr hfind =>
        have hfr : mapLookup s.rooms k = some fr :=
          mapLookup_of_mem_keys_nodup (findRoomEntry_mem hfind) hg.2.1
        have hfrid : fr.id = k := hg.1 k fr hfr
        have hg1 : GoodState (match dev.roomId with
            | some _ => handleLeaveRoom did s
            | none => s) := by
          split
          · exact (leave_spec s did hg).1
          · exact hg
        have hnm1 : NotMember (match dev.roomId with
            | some _ => handleLeaveRoom did s
            | none => s) did := by
          split
          · exact (leave_spec s did hg).2.1
          next hdr => exact notMember_of_roomId_none hg hdev hdr
        split
        next r1 hws =>
          split
          next r hk1 =>
            exact goodState_room_insert _ did k _ _ hg1 hnm1 (hg1.1 k r hk1)
              (fun m hm => (mem_of_mem_setAdd hm).symm.imp id (fun h' => ⟨r, hk1, h'⟩))
              (by simp [hfrid])
          next hk1 =>
            exact goodState_update_nonmember _ _ _ hnm1 hg1
        next r1 c hws =>
          refine goodState_broadcastToRoom _ _ _ _ (goodState_broadcastDeviceList _ _
            (goodState_emitTo _ _ _ ?_))
          split
          next r hk1 =>
            exact goodState_room_insert _ did k _ _ hg1 hnm1 (hg1.1 k r hk1)
              (fun m hm => (mem_of_mem_setAdd hm).symm.imp id (fun h' => ⟨r, hk1, h'⟩))
              (by simp [hfrid])
          next hk1 =>
            exact goodState_update_nonmember _ _ _ hnm1 hg1

theorem expire_core (s1 s2 : ServerState) (did : String)
    (hrooms : s2.rooms = s1.rooms) (hdevs : s2.devices = s1.devices)
    (hg1 : GoodState s1) (hnm1 : NotMember s1 did) :
    GoodState { s2 with devices := mapErase s2.devices did } :=
  goodState_erase_device s2 did (notMember_of_eq hrooms hnm1)
    (goodState_of_eq hrooms hdevs hg1)

theorem janitorExpireDevice_goodState (did : String) (now : Nat) (s : ServerState)
    (hg : GoodState s) : GoodState (janitorExpireDevice did now s) := by
  simp only [janitorExpireDevice]
  split
  · exact hg
  next dev hdev =>
    have hg1 : GoodState (match dev.roomId with
        | some rid =>
          (match mapLookup s.rooms rid with
           | some room =>
             if (setDel room.devices did).isEmpty then
               { s with rooms := mapErase s.rooms rid }
             else
               { s with rooms := mapInsert s.rooms rid { room with devices := setDel room.devices did } }
           | none => s)
        | none => s) := by
      split
      next rid hdr =>
        split
        next room hro =>
          split
          · exact goodState_erase_room s rid hg
          · exact goodState_shrink_room s rid room did hro hg
        next hro => exact hg
      next hdr => exact hg
    have hnm1 : NotMember (match dev.roomId with
        | some rid =>
          (match mapLookup s.rooms rid with
           | some room =>
             if (setDel room.devices did).isEmpty then
               { s with rooms := mapErase s.rooms rid }
             else
               { s with rooms := mapInsert s.rooms rid { room with devices := setDel room.devices did } }
           | none => s)
        | none => s) did := by
      split
      next rid hdr =>
        have honly := member_only_roomId s did dev rid hg hdev hdr
        split
        next room hro =>
          split
          · exact notMember_erase_room s did rid hg.2.1 honly
          · exact notMember_shrink_room s did rid room honly
        next hro => exact notMember_no_room s did rid hro honly
      next hdr => exact notMember_of_roomId_none hg hdev hdr
    split <;> split
    all_goals first
      | exact hg
      | exact expire_core _ _ did (by (repeat' split) <;> rfl)
          (by (repeat' split) <;> rfl) hg1 hnm1

theorem initState_goodState : GoodState initState := by
  refine ⟨?_, ?_, ?_⟩
  · intro k r hlk
    cases hlk
  · simp [RoomKeysNodup, initState]
  · intro k r hlk
    cases hlk

theorem step_goodState {s s' : ServerState} (h : Step s s') (hg : GoodState s) :
    GoodState s' := by
  cases h with
  | connect ws ua ip lang now s hc => exact handleConnection_goodState ws ua ip lang now s hg
  | close ws did now s hc => exact handleClose_goodState ws did now s hg
  | joinRoom did msg s => exact handleJoinRoom_goodState did msg s hg
  | createRoom did msg fresh now s hc => exact handleCreateRoom_goodState did msg fresh now s hg
  | leaveRoom did s => exact (leave_spec s did hg).1
  | deviceInfo did msg now s => exact handleDeviceInfo_goodState did msg now s hg
  | updateName did newName now s => exact handleUpdateDeviceName_goodState did newName now s hg
  | togglePin did tid s => exact handleTogglePinDevice_goodState did tid s hg
  | offer sid msg freshId now s => exact handleFileTransfer_goodState sid msg freshId now s hg
  | chunk msg now s => exact handleFileChunk_goodState msg now s hg
  | cancel tid s => exact handleFileCancel_goodState tid s hg
  | complete tid s => exact handleFileComplete_goodState tid s hg
  | transferCompleteMsg tid s => exact handleTransferCompleteMsg_goodState tid s hg
  | reqMissing did msg s => exact handleRequestMissingChunks_goodState did msg s hg
  | expireDevice did now s => exact janitorExpireDevice_goodState did now s hg
  | sweep now s => exact janitorTransferSweep_goodState now s hg

theorem reachable_goodState {s : ServerState} (h : Reachable s) : GoodState s := by
  induction h with
  | refl => exact initState_goodState
  | tail _ hstep ih => exact step_goodState hstep ih

/-- C10: at most one room per device via automatic leave.  `handleJoinRoom`
and `handleCreateRoom` run `handleLeaveRoom` first whenever the device is
already in a room, so in every reachable state every member of every room
is a registered device whose `roomId` points back at exactly that room's
key, and consequently no device id appears in the member sets of two
distinct rooms. -/
theorem c10_single_room_invariant (s : ServerState) (h : Reachable s) :
    (∀ k r, mapLookup s.rooms k = some r → ∀ did, did ∈ r.devices →
      ∃ dev, mapLookup s.devices did = some dev ∧ dev.roomId = some k) ∧
    (∀ did k₁ r₁ k₂ r₂, mapLookup s.rooms k₁ = some r₁ →
      mapLookup s.rooms k₂ = some r₂ → did ∈ r₁.devices → did ∈ r₂.devices →
      k₁ = k₂) := by
  have hg := reachable_goodState h
  refine ⟨hg.2.2, ?_⟩
  intro did k₁ r₁ k₂ r₂ h1 h2 m1 m2
  obtain ⟨dev1, hd1, hr1⟩ := hg.2.2 k₁ r₁ h1 did m1
  obtain ⟨dev2, hd2, hr2⟩ := hg.2.2 k₂ r₂ h2 did m2
  rw [hd1] at hd2
  injection hd2 with e
  subst e
  rw [hr1] at hr2
  exact Option.some.inj hr2

/-- Witness for C10 at the concrete four-step scenario run: two
connections, `createRoom Foo` by the sender, `joinRoom " FOO "` by the
receiver.  The invariant instantiated at the stored room yields the
receiver's registration with `roomId` pointing back at the room key. -/
theorem c10_single_room_invariant_witness :
    ∃ dev, mapLookup Scenario.roomed.devices Scenario.receiverId = some dev ∧
      dev.roomId = some "room-1-abc" := by
  have r1 : Reachable (handleConnection 1 Scenario.uaWin "1.1.1.1" "de" 100 initState) :=
    Relation.ReflTransGen.tail Relation.ReflTransGen.refl
      (Step.connect 1 Scenario.uaWin "1.1.1.1" "de" 100 initState (by decide))
  have r2 : Reachable Scenario.afterConnects :=
    Relation.ReflTransGen.tail r1
      (Step.connect 2 Scenario.uaLinux "2.2.2.2" "de" 101 _ (by decide))
  have r3 : Reachable Scenario.created :=
    Relation.ReflTransGen.tail r2
      (Step.createRoom Scenario.senderId ⟨"Foo"⟩ "room-1-abc" 102
        Scenario.afterConnects (by decide))
  have r4 : Reachable Scenario.roomed :=
    Relation.ReflTransGen.tail r3
      (Step.joinRoom Scenario.receiverId ⟨" FOO "⟩ Scenario.created)
  exact (c10_single_room_invariant Scenario.roomed r4).1 "room-1-abc"
    { id := "room-1-abc", name := "Foo", created := 102,
      createdBy := Scenario.senderId,
      devices := [Scenario.senderId, Scenario.receiverId] }
    (by decide) Scenario.receiverId (by decide)

theorem devEmit_channels (s : ServerState) (d : Device) (f : Frame) :
    (devEmit s d f).channels = s.channels := (devEmit_onlyEmits s d f).2.2.1

theorem broadcastToRoom_rooms (roomId : String) (f : Frame) (ex : Option String)
    (s : ServerState) : (broadcastToRoom roomId f ex s).rooms = s.rooms :=
  (broadcastToRoom_onlyEmits roomId f ex s).1

theorem leave_channels (s : ServerState) (did : String) :
    (handleLeaveRoom did s).channels = s.channels := by
  simp only [handleLeaveRoom]
  repeat' split
  all_goals
    simp [devEmit_channels, (broadcastToRoom_onlyEmits _ _ _ _).2.2.1]

theorem leave_devices_self (s : ServerState) (did : String) (dev : Device) (rid : String)
    (hdev : mapLookup s.devices did = some dev) (hrid : dev.roomId = some rid) :
    mapLookup (handleLeaveRoom did s).devices did = some { dev with roomId := none } := by
  simp only [handleLeaveRoom, hdev, hrid]
  rw [devEmit_devices]
  exact mapLookup_insert_self _ _ _

theorem leave_rooms_lookup_ne (s : ServerState) (did : String) (dev : Device)
    (rid k : String) (hdev : mapLookup s.devices did = some dev)
    (hrid : dev.roomId = some rid) (hk : rid ≠ k) :
    mapLookup (handleLeaveRoom did s).rooms k = mapLookup s.rooms k := by
  simp only [handleLeaveRoom, hdev, hrid]
  rw [devEmit_rooms]
  split
  next hro => rfl
  next room hro =>
    split
    · exact mapLookup_erase_ne _ _ _ hk
    · rw [broadcastToRoom_rooms]
      exact mapLookup_insert_ne _ _ _ _ hk

theorem leave_rooms_self_shrink (s : ServerState) (did : String) (dev : Device)
    (k : String) (fr : Room) (hdev : mapLookup s.devices did = some dev)
    (hrid : dev.roomId = some k) (hro : mapLookup s.rooms k = some fr)
    (hne : (setDel fr.devices did).isEmpty = false) :
    mapLookup (handleLeaveRoom did s).rooms k =
      some { fr with devices := setDel fr.devices did } := by
  simp only [handleLeaveRoom, hdev, hrid, hro, hne, Bool.false_eq_true, if_false]
  rw [devEmit_rooms, broadcastToRoom_rooms]
  exact mapLookup_insert_self _ _ _

theorem leave_sole (s : ServerState) (did : String) (dev : Device) (k : String)
    (fr : Room) (hdev : mapLookup s.devices did = some dev)
    (hrid : dev.roomId = some k) (hro : mapLookup s.rooms k = some fr)
    (hsole : setDel fr.devices did = []) :
    handleLeaveRoom did s = devEmit
      { ({ s with rooms := mapErase s.rooms k } : ServerState) with
        devices := mapInsert s.devices did { dev with roomId := none } }
      dev .roomLeft := by
  have hemp : (setDel fr.devices did).isEmpty = true := by rw [hsole]; rfl
  simp only [handleLeaveRoom, hdev, hrid, hro, hemp, if_true]

/-- C6 (amended): room joining is by display name only (trimmed and
case-folded on the request side); `c6_counterexample_join_by_id` shows the
server-minted id is never consulted.  First conjunct: for a registered
device with an open channel whose request resolves (uniquely) to an
existing room's display name, the join stores the device in that room's
member set, points the device's `roomId` at the room, and answers
`roomJoined` — covering devices in no room, devices in another room, and
rejoins of one's own room with other members, all via the implicit leave.
Second conjunct, the excluded corner: when the room's sole member rejoins
it by name, the implicit leave deletes the emptied room and the join never
re-inserts it (the JS mutates a detached object), yet `roomJoined` with
member count 1 is still delivered and the device's `roomId` is pointed at
the now-deleted room. -/
theorem c6_amended_join_by_name :
    (∀ (s : ServerState) (did requested k : String) (dev : Device) (fr : Room) (c : Nat),
      mapLookup s.devices did = some dev →
      dev.ws = some c → channelOpen s c = true →
      strTrim requested ≠ "" →
      mapLookup s.rooms k = some fr →
      strLower fr.name = strTrim (strLower requested) →
      (∀ k' r', (k', r') ∈ s.rooms →
        strLower r'.name = strTrim (strLower requested) → k' = k ∧ r' = fr) →
      ¬ (dev.roomId = some k ∧ setDel fr.devices did = []) →
      ∃ r', mapLookup (handleJoinRoom did ⟨requested⟩ s).rooms k = some r' ∧
        did ∈ r'.devices ∧
        mapLookup (handleJoinRoom did ⟨requested⟩ s).devices did =
          some { dev with roomId := some fr.id } ∧
        (c, Frame.roomJoined fr.id fr.name r'.devices.length) ∈
          (handleJoinRoom did ⟨requested⟩ s).emitted) ∧
    (∀ (s : ServerState) (did requested k : String) (dev : Device) (fr : Room) (c : Nat),
      RoomKeysNodup s →
      mapLookup s.devices did = some dev →
      dev.ws = some c → channelOpen s c = true →
      strTrim requested ≠ "" →
      mapLookup s.rooms k = some fr →
      strLower fr.name = strTrim (strLower requested) →
      (∀ k' r', (k', r') ∈ s.rooms →
        strLower r'.name = strTrim (strLower requested) → k' = k ∧ r' = fr) →
      dev.roomId = some k → setDel fr.devices did = [] →
      mapLookup (handleJoinRoom did ⟨requested⟩ s).rooms k = none ∧
      mapLookup (handleJoinRoom did ⟨requested⟩ s).devices did =
        some { dev with roomId := some fr.id } ∧
      (c, Frame.roomJoined fr.id fr.name 1) ∈
        (handleJoinRoom did ⟨requested⟩ s).emitted) := by
  constructor
  · intro s did requested k dev fr c hdev hws hopen hne hk hname huniq hnot
    have hreqne : ¬ (requested = "" || strTrim requested = "") = true := by
      intro h
      rcases Bool.or_eq_true _ _ |>.mp h with h | h
      · have : requested = "" := by simpa using h
        apply hne
        rw [this]
        rfl
      · exact hne (by simpa using h)
    have hfind : findRoomEntry s.rooms (strTrim (strLower requested)) = some (k, fr) :=
      findRoomEntry_eq (mapLookup_mem hk) hname huniq
    rw [channelOpen] at hopen
    cases hdr : dev.roomId with
    | none =>
      refine ⟨{ fr with devices := setAdd fr.devices did }, ?_,
        mem_setAdd_self _ _, ?_, ?_⟩
      all_goals simp only [handleJoinRoom, hdev, hreqne, hfind, hdr, hk, hws, emitTo,
        channelOpen, hopen, if_true, if_false, Bool.false_eq_true, Option.getD_some]
      · rw [postBroadcasts_rooms]
        exact mapLookup_insert_self _ _ _
      · rw [postBroadcasts_devices]
        exact mapLookup_insert_self _ _ _
      · apply postBroadcasts_mem
        simp
    | some rid =>
      have hch := leave_channels s did
      have hd1 := leave_devices_self s did dev rid hdev hdr
      by_cases hkk : rid = k
      · subst hkk
        have hsde : setDel fr.devices did ≠ [] := fun h => hnot ⟨hdr, h⟩
        have hne2 : (setDel fr.devices did).isEmpty = false := by
          cases hsd : setDel fr.devices did with
          | nil => exact absurd hsd hsde
          | cons a l => rfl
        have hl1 := leave_rooms_self_shrink s did dev rid fr hdev hdr hk hne2
        refine ⟨{ fr with devices := setAdd (setDel fr.devices did) did }, ?_,
          mem_setAdd_self _ _, ?_, ?_⟩
        all_goals simp only [handleJoinRoom, hdev, hreqne, hfind, hdr, hl1, hd1, hws,
          emitTo, channelOpen, hch, hopen, if_true, if_false, Bool.false_eq_true,
          Option.getD_some]
        · rw [postBroadcasts_rooms]
          exact mapLookup_insert_self _ _ _
        · rw [postBroadcasts_devices]
          exact mapLookup_insert_self _ _ _
        · apply postBroadcasts_mem
          simp
      · have hl1 := leave_rooms_lookup_ne s did dev rid k hdev hdr hkk
        have hl2 : mapLookup (handleLeaveRoom did s).rooms k = some fr := by
          rw [hl1]
          exact hk
        refine ⟨{ fr with devices := setAdd fr.devices did }, ?_,
          mem_setAdd_self _ _, ?_, ?_⟩
        all_goals simp only [handleJoinRoom, hdev, hreqne, hfind, hdr, hl2, hd1, hws,
          emitTo, channelOpen, hch, hopen, if_true, if_false, Bool.false_eq_true,
          Option.getD_some]
        · rw [postBroadcasts_rooms]
          exact mapLookup_insert_self _ _ _
        · rw [postBroadcasts_devices]
          exact mapLookup_insert_self _ _ _
        · apply postBroadcasts_mem
          simp
  · intro s did requested k dev fr c hnd hdev hws hopen hne hk hname huniq hdr hsole
    have hreqne : ¬ (requested = "" || strTrim requested = "") = true := by
      intro h
      rcases Bool.or_eq_true _ _ |>.mp h with h | h
      · have : requested = "" := by simpa using h
        apply hne
        rw [this]
        rfl
      · exact hne (by simpa using h)
    have hfind : findRoomEntry s.rooms (strTrim (strLower requested)) = some (k, fr) :=
      findRoomEntry_eq (mapLookup_mem hk) hname huniq
    rw [channelOpen] at hopen
    have hls := leave_sole s did dev k fr hdev hdr hk hsole
    have hl1 : mapLookup (handleLeaveRoom did s).rooms k = none := by
      rw [hls, devEmit_rooms]
      exact mapLookup_erase_self _ _ hnd
    have hd1 : mapLookup (handleLeaveRoom did s).devices did =
        some { dev with roomId := none } := by
      rw [hls, devEmit_devices]
      exact mapLookup_insert_self _ _ _
    have hch : (handleLeaveRoom did s).channels = s.channels := by
      rw [hls, devEmit_channels]
    refine ⟨?_, ?_, ?_⟩
    all_goals simp only [handleJoinRoom, hdev, hreqne, hfind, hdr, hl1, hd1, hws, hsole,
      emitTo, channelOpen, hch, hopen, if_true, if_false, Bool.false_eq_true,
      Option.getD_some]
    · rw [postBroadcasts_rooms]
      exact hl1
    · rw [postBroadcasts_devices]
      exact mapLookup_insert_self _ _ _
    · apply postBroadcasts_mem
      simp [setAdd]

/-- C6 witness.  First conjunct at the receiver joining room `Foo` in the
`created` state by sending `" FOO "`: it lands in the stored member set
with `roomJoined` on channel 2.  Second conjunct at the sender — the sole
member of `Foo` — rejoining by name: the room is gone from the map, yet
`roomJoined` (count 1) is delivered on channel 1 and the sender's `roomId`
still names the deleted room. -/
theorem c6_amended_join_by_name_witness :
    (∃ r', mapLookup (handleJoinRoom Scenario.receiverId ⟨" FOO "⟩
        Scenario.created).rooms "room-1-abc" = some r' ∧
      Scenario.receiverId ∈ r'.devices ∧
      mapLookup (handleJoinRoom Scenario.receiverId ⟨" FOO "⟩
          Scenario.created).devices Scenario.receiverId =
        some { Scenario.receiverDev0 with roomId := some Scenario.fooRoom.id } ∧
      (2, Frame.roomJoined Scenario.fooRoom.id Scenario.fooRoom.name
          r'.devices.length) ∈
        (handleJoinRoom Scenario.receiverId ⟨" FOO "⟩ Scenario.created).emitted) ∧
    (mapLookup (handleJoinRoom Scenario.senderId ⟨"Foo"⟩
        Scenario.created).rooms "room-1-abc" = none ∧
      mapLookup (handleJoinRoom Scenario.senderId ⟨"Foo"⟩
          Scenario.created).devices Scenario.senderId =
        some { Scenario.senderDev with roomId := some Scenario.fooRoom.id } ∧
      (1, Frame.roomJoined Scenario.fooRoom.id Scenario.fooRoom.name 1) ∈
        (handleJoinRoom Scenario.senderId ⟨"Foo"⟩ Scenario.created).emitted) := by
  have hrooms : Scenario.created.rooms = [("room-1-abc", Scenario.fooRoom)] := by decide
  constructor
  · exact c6_amended_join_by_name.1 Scenario.created Scenario.receiverId " FOO "
      "room-1-abc" Scenario.receiverDev0 Scenario.fooRoom 2 (by decide) (by decide)
      (by decide) (by decide) (by decide) (by decide)
      (by
        intro k' r' hmem hn
        rw [hrooms] at hmem
        simp only [List.mem_singleton] at hmem
        cases hmem
        exact ⟨rfl, rfl⟩)
      (by decide)
  · exact c6_amended_join_by_name.2 Scenario.created Scenario.senderId "Foo"
      "room-1-abc" Scenario.senderDev Scenario.fooRoom 1
      (by unfold RoomKeysNodup; decide) (by decide)
      (by decide) (by decide) (by decide) (by decide) (by decide)
      (by
        intro k' r' hmem hn
        rw [hrooms] at hmem
        simp only [List.mem_singleton] at hmem
        cases hmem
        exact ⟨rfl, rfl⟩)
      (by decide) (by decide)
